import Mathlib

/-!
Verification of the home-database approval/ledger core.

Shallow embedding of the repository's backend:
  * models (src/unnamed/part_000..part_002): PersonalExpense, Approval,
    ExpenseEntry, IncomeEntry, AuditLog, Notification;
  * src/routes/personalExpenses.js: createAudit, computeMonthlyTotals and the
    POST /, PUT /:id, POST /:id/submit, POST /:id/approve, POST /:id/cancel,
    GET /:id/approvals handlers;
  * src/routes/reports.js: GET /remaining aggregation and computeMonthlyTotals.

Embedding conventions:
  * Mongo ObjectIds are natural numbers; an `:id` request parameter is either
    `malformed` (fails mongoose.Types.ObjectId.isValid) or `valid n`;
  * Date values are opaque integer timestamps ordered as the source orders
    dates; calendar arithmetic (month boundaries) is abstracted into the
    start/end bounds the source computes from them;
  * JavaScript numbers are `JsNum`: exact rationals plus the IEEE special
    values Infinity, -Infinity and NaN, which the source can produce via
    Number() coercion of request-body values.  A raw request-body amount
    is abstracted to the `Option JsNum` image of `Number()` on it
    (absent/null collapse to `none`; the string "abc" to `nan`; the string
    "Infinity" to `posInf`);
  * storage primitives (create/save/findOne) are total operations on an
    explicit `DB` value; each route returns its HTTP outcome together with
    the post-state.
-/

set_option maxHeartbeats 1000000

namespace HomeDB

/-- Decision strings accepted by POST /:id/approve, once parsed. -/
inductive Decision
  | approve
  | reject
deriving DecidableEq, Repr

/-- PersonalExpense lifecycle states (PersonalExpenseSchema.status enum). -/
inductive Status
  | draft
  | pending
  | approved
  | rejected
  | cancelled
deriving DecidableEq, Repr

/-- JavaScript numbers: finite values kept exact, plus IEEE special values. -/
inductive JsNum
  | fin (q : ℚ)
  | posInf
  | negInf
  | nan
deriving DecidableEq, Repr

namespace JsNum

/-- JavaScript `+` on numbers. -/
def add : JsNum → JsNum → JsNum
  | nan, _ => nan
  | fin _, nan => nan
  | posInf, nan => nan
  | negInf, nan => nan
  | fin a, fin b => fin (a + b)
  | fin _, posInf => posInf
  | fin _, negInf => negInf
  | posInf, fin _ => posInf
  | posInf, posInf => posInf
  | posInf, negInf => nan
  | negInf, fin _ => negInf
  | negInf, negInf => negInf
  | negInf, posInf => nan

/-- JavaScript `-` on numbers. -/
def sub : JsNum → JsNum → JsNum
  | nan, _ => nan
  | fin _, nan => nan
  | posInf, nan => nan
  | negInf, nan => nan
  | fin a, fin b => fin (a - b)
  | fin _, posInf => negInf
  | fin _, negInf => posInf
  | posInf, fin _ => posInf
  | posInf, posInf => nan
  | posInf, negInf => posInf
  | negInf, fin _ => negInf
  | negInf, negInf => nan
  | negInf, posInf => negInf

/-- JavaScript division by the length of a (possibly empty) array. -/
def divNat : JsNum → Nat → JsNum
  | nan, _ => nan
  | fin q, 0 => if q = 0 then nan else if 0 < q then posInf else negInf
  | fin q, (n+1) => fin (q / ((n : ℚ) + 1))
  | posInf, _ => posInf
  | negInf, _ => negInf

/-- JavaScript `Math.round`: nearest integer, halves toward +Infinity. -/
def round : JsNum → JsNum
  | fin q => fin ((⌊q + 1/2⌋ : ℤ) : ℚ)
  | posInf => posInf
  | negInf => negInf
  | nan => nan

/-- JavaScript `===` on numbers (NaN compares unequal to everything). -/
def strictEq : JsNum → JsNum → Bool
  | fin a, fin b => a == b
  | posInf, posInf => true
  | negInf, negInf => true
  | _, _ => false

/-- JavaScript `Number.isNaN`. -/
def isNaN : JsNum → Bool
  | nan => true
  | _ => false

/-- JavaScript `x || 0` on a number (0 and NaN are falsy). -/
def orZero (x : JsNum) : JsNum :=
  if x = fin 0 ∨ x = nan then fin 0 else x

end JsNum

/-- Mongo `$sum` / `Array.prototype.reduce((s, v) => s + v, 0)` over JS numbers. -/
def sumJs (l : List JsNum) : JsNum := l.foldl JsNum.add (.fin 0)

/-! ### String matching helpers (the free-text tagging conventions) -/

/-- Character-list "is a leading segment of" test. -/
def chPre : List Char → List Char → Bool
  | [], _ => true
  | _ :: _, [] => false
  | a :: as, b :: bs => a == b && chPre as bs

/-- Substring occurrence test on character lists. -/
def hasSub (hay pat : List Char) : Bool :=
  (List.range (hay.length + 1)).any (fun i => chPre pat (hay.drop i))

/-- Lower-cased character data of a string (for case-insensitive regexes). -/
def lowerStr (s : String) : List Char := s.data.map Char.toLower

/-- Case-insensitive substring match: `new RegExp(pat, "i").test(hay)` for a
regex-special-character-free `pat`. -/
def containsLower (hay pat : String) : Bool := hasSub (lowerStr hay) (lowerStr pat)

/-- Case-sensitive anchored prefix match: `/^pat/.test(s)` for a literal pat. -/
def startsWithStr (s pat : String) : Bool := chPre pat.data s.data

/-! ### Data model (mongoose schemas) -/

/-- A user account (backend/models/User.js, role field only). -/
structure UserRec where
  id : Nat
  role : String
deriving DecidableEq, Repr

/-- An expense category (backend/models/ExpenseCategory.js). -/
structure Cat where
  id : Nat
  name : String
deriving DecidableEq, Repr

/-- PersonalExpenseSchema. -/
structure PersonalExpense where
  id : Nat
  user : Nat
  title : String
  description : String
  category : Option Nat
  amount_min : ℚ
  amount_avg : ℚ
  amount_max : ℚ
  requested_amount : Option ℚ
  unit : Option String
  start_date : Option Int
  end_date : Option Int
  status : Status
  attachments : List String
  required_admins_count : Nat
  approvals_count : Nat
  approved_amount : Option JsNum
  approved_at : Option Int
  createdAt : Int
  updatedAt : Int
deriving DecidableEq, Repr

/-- ApprovalSchema (one admin's decision on one personal expense). -/
structure Approval where
  personal_expense : Nat
  admin_user : Nat
  decision : Decision
  comment : String
  approved_amount : Option JsNum
  decided_at : Int
deriving DecidableEq, Repr

/-- ExpenseEntrySchema (general-ledger expense record). -/
structure ExpenseEntry where
  record_id : Option Nat
  category : Option Nat
  title : String
  amount_min : Option ℚ
  amount_avg : Option ℚ
  amount_max : Option ℚ
  actual_amount : Option JsNum
  unit : Option String
  note : String
  date : Int
  created_by : Nat
  attachments : List String
deriving DecidableEq, Repr

/-- IncomeEntrySchema. -/
structure IncomeEntry where
  source_name : String
  amount : ℚ
  currency : String
  note : String
  date : Int
  created_by : Nat
deriving DecidableEq, Repr

/-- AuditLogSchema (meta payload abstracted away). -/
structure AuditRecord where
  entity_type : String
  entity_id : Nat
  action : String
  performed_by : Option Nat
deriving DecidableEq, Repr

/-- NotificationSchema (body/link/meta abstracted to the target and title). -/
structure Notif where
  user : Nat
  title : String
deriving DecidableEq, Repr

/-- The whole Mongo database relevant to the core. -/
structure DB where
  pes : List PersonalExpense
  approvals : List Approval
  entries : List ExpenseEntry
  incomes : List IncomeEntry
  categories : List Cat
  users : List UserRec
  notifications : List Notif
  audit : List AuditRecord
  nextId : Nat
deriving DecidableEq, Repr

/-- An `:id` route parameter after mongoose.Types.ObjectId.isValid. -/
inductive IdParam
  | malformed
  | valid (id : Nat)
deriving DecidableEq, Repr

/-- HTTP error outcomes of the routes, by their meaning. -/
inductive ApiError
  | notFound
  | notOwner
  | forbidden
  | invalidState
  | validationError
deriving DecidableEq, Repr

/-- Helper: create audit log (personalExpenses.js lines 19-37).  The try/catch
in the source swallows a storage failure, so a failing write (ok = false)
leaves the database untouched and the helper still returns normally. -/
def createAudit (ok : Bool) (db : DB) (r : AuditRecord) : DB :=
  if ok then { db with audit := db.audit ++ [r] } else db

/-- Lookup `PersonalExpense.findById`. -/
def findPe (db : DB) (rid : Nat) : Option PersonalExpense :=
  db.pes.find? (fun p => p.id == rid)

/-- Save `pe.save()` of an already-stored document (matched by _id). -/
def updatePe (db : DB) (pe : PersonalExpense) : DB :=
  { db with pes := db.pes.map (fun p => if p.id == pe.id then pe else p) }

/-- Query `Approval.find({ personal_expense: rid, decision: "approve" })`. -/
def approveRowsFor (db : DB) (rid : Nat) : List Approval :=
  db.approvals.filter (fun r => r.personal_expense == rid && r.decision == Decision.approve)

/-- Store a new state of the approvals collection. -/
def setApprovals (db : DB) (x : List Approval) : DB := { db with approvals := x }

/-- Store a new state of the expense-entries collection. -/
def setEntries (db : DB) (x : List ExpenseEntry) : DB := { db with entries := x }

/-- Store a new state of the personal-expenses collection. -/
def setPes (db : DB) (x : List PersonalExpense) : DB := { db with pes := x }

/-- Insert via `Notification.create` (its failure is swallowed at every call site, so the
operation is total on the embedded state). -/
def addNotif (db : DB) (n : Notif) : DB :=
  { db with notifications := db.notifications ++ [n] }

/-! ### The approval (consensus) endpoint: POST /:id/approve -/

/-- Successful responses of POST /:id/approve. -/
inductive DecideOk
  | rejectedResp
  | stillPending (k required : Nat)
  | approvedFinal (amt : JsNum)
deriving DecidableEq, Repr

/-- Final amount resolution on quorum (personalExpenses.js lines 519-542):
gather the non-null per-admin amounts; all strictly equal → that value;
disagreeing → Math.round of the arithmetic mean; none → requested_amount,
else amount_avg. -/
def finalApprovedAmount (providedAmounts : List JsNum) (requested : Option ℚ)
    (avg : ℚ) : JsNum :=
  match providedAmounts with
  | [] =>
    match requested with
    | some r => .fin r
    | none => .fin avg
  | h :: t =>
    if (h :: t).all (fun v => JsNum.strictEq v h) then h
    else JsNum.round (JsNum.divNat (sumJs (h :: t)) (h :: t).length)

/-- Note text tagging a materialized entry with its source request id
(template literal at personalExpenses.js line 603). -/
def personalNote (idStr : String) : String :=
  "Approved personal expense" ++ " (id: " ++ idStr ++ ")"

/-- Title marker of a materialized entry (line 597). -/
def personalTitle (t : String) : String := "[Personal]" ++ " " ++ t

/-- The ExpenseEntry created from a finalized personal expense
(personalExpenses.js lines 594-607). -/
def mkPersonalEntry (pe : PersonalExpense) (finalAmt : JsNum) (adminId : Nat)
    (now : Int) : ExpenseEntry :=
  { record_id := none
    category := pe.category
    title := personalTitle pe.title
    amount_min := some pe.amount_min
    amount_avg := some pe.amount_avg
    amount_max := some pe.amount_max
    actual_amount := some finalAmt
    unit := pe.unit
    note := personalNote (toString pe.id)
    date := pe.approved_at.getD now
    created_by := adminId
    attachments := [] }

/-- Ledger materialization (personalExpenses.js lines 588-622): look for an
existing entry whose note contains the request id (case-insensitive regex);
if one exists do not write anything, otherwise create the tagged entry. -/
def materializeEntry (entries : List ExpenseEntry) (pe : PersonalExpense)
    (finalAmt : JsNum) (adminId : Nat) (now : Int) : List ExpenseEntry :=
  if entries.any (fun en => containsLower en.note (toString pe.id)) then entries
  else entries ++ [mkPersonalEntry pe finalAmt adminId now]

/-- The decision upsert keyed on (personal_expense, admin_user)
(personalExpenses.js lines 419-440): `Approval.create`, and on the
unique-index violation (error code 11000) a `findOneAndUpdate` of the
already-existing row of that admin. -/
def upsertApproval (db : DB) (rid adminId : Nat) (dec : Decision)
    (comment : String) (amt : Option JsNum) (now : Int) : DB :=
  if db.approvals.any (fun r => r.personal_expense == rid && r.admin_user == adminId) then
    setApprovals db (db.approvals.map (fun r =>
        if r.personal_expense == rid && r.admin_user == adminId then
          { r with decision := dec, comment := comment, decided_at := now,
                   approved_amount := amt }
        else r))
  else
    setApprovals db (db.approvals ++
        [{ personal_expense := rid, admin_user := adminId, decision := dec,
           comment := comment, approved_amount := amt, decided_at := now }])

/-- The tail of POST /:id/approve after the decision upsert landed in `db1`
(personalExpenses.js lines 442-643): the per-decision audit record, then the
reject short-circuit or the quorum computation over the current approve rows,
finalization, owner notification and ledger materialization. -/
def decideResolve (ok : Bool) (db1 : DB) (pe : PersonalExpense)
    (rid adminId : Nat) (dec : Decision) (now : Int) :
    Except ApiError DecideOk × DB :=
  let db2 := createAudit ok db1
    ⟨"personal_expense", rid,
     (if dec = .approve then "admin_approve" else "admin_reject"), some adminId⟩
  match dec with
  | .reject =>
    let approveCount := (approveRowsFor db1 rid).length
    let pe1 := { pe with status := Status.rejected, approvals_count := approveCount,
                         updatedAt := now }
    let db3 := updatePe db2 pe1
    let db4 := createAudit ok db3 ⟨"personal_expense", rid, "rejected_final", some adminId⟩
    let db5 := addNotif db4 ⟨pe.user, "Your personal expense request was rejected"⟩
    let db6 := createAudit ok db5 ⟨"notification", rid, "notify_owner_rejected", some adminId⟩
    (.ok .rejectedResp, db6)
  | .approve =>
    let approveRows := approveRowsFor db1 rid
    let uniqueApprovers := (approveRows.map (fun r => r.admin_user)).dedup
    let pe1 := { pe with approvals_count := approveRows.length, updatedAt := now }
    let db3 := updatePe db2 pe1
    if uniqueApprovers.length ≥
        (if pe.required_admins_count = 0 then 2 else pe.required_admins_count) then
      let providedAmounts := approveRows.filterMap (fun r => r.approved_amount)
      let final := finalApprovedAmount providedAmounts pe.requested_amount pe.amount_avg
      let pe2 := { pe1 with status := Status.approved, approved_amount := some final,
                            approved_at := some now }
      let db4 := updatePe db3 pe2
      let db5 := createAudit ok db4 ⟨"personal_expense", rid, "approved_final", some adminId⟩
      let db6 := addNotif db5 ⟨pe.user, "Your personal expense request was approved"⟩
      let db7 := createAudit ok db6 ⟨"notification", rid, "notify_owner_approved", some adminId⟩
      let tagged := db7.entries.any (fun en => containsLower en.note (toString rid))
      let db8 := setEntries db7 (materializeEntry db7.entries pe2 final adminId now)
      -- the creation audit is written exactly when the entry was just created
      let db9 := createAudit (ok && !tagged) db8
        ⟨"expense_entry", rid, "created_from_personal_approval", some adminId⟩
      (.ok (.approvedFinal final), db9)
    else
      (.ok (.stillPending uniqueApprovers.length pe.required_admins_count), db3)

/-- Body of POST /:id/approve after id validation, decision parsing and
approved_amount validation/normalization (personalExpenses.js lines 411-643). -/
def postApproveChecked (ok : Bool) (db : DB) (adminId rid : Nat) (dec : Decision)
    (comment : String) (amt : Option JsNum) (now : Int) :
    Except ApiError DecideOk × DB :=
  match findPe db rid with
  | none => (.error .notFound, db)
  | some pe =>
    if pe.status ≠ .pending then (.error .invalidState, db)
    else
      decideResolve ok (upsertApproval db rid adminId dec comment amt now) pe rid
        adminId dec now

/-- POST /:id/approve (personalExpenses.js lines 373-651).  `raw` is the
Number() image of req.body.approved_amount (none for undefined/null).
Validation order follows the source: id well-formedness, decision membership
in ["approve","reject"], then — for approve only — presence and
non-NaN-ness of the amount, all before the request is even loaded. -/
def postApprove (ok : Bool) (db : DB) (adminId : Nat) (idp : IdParam)
    (decision : String) (comment : String) (raw : Option JsNum) (now : Int) :
    Except ApiError DecideOk × DB :=
  match idp with
  | .malformed => (.error .notFound, db)
  | .valid rid =>
    if ¬ (decision = "approve" ∨ decision = "reject") then (.error .validationError, db)
    else if decision = "approve" then
      match raw with
      | none => (.error .validationError, db)
      | some v =>
        if v.isNaN then (.error .validationError, db)
        else postApproveChecked ok db adminId rid .approve comment (some v) now
    else
      postApproveChecked ok db adminId rid .reject comment raw now

/-! ### PUT /:id (edit while draft) -/

/-- The request body of PUT /:id, restricted to the fields the handler copies
(`updatable` list, personalExpenses.js lines 259-270).  `none` means the key
was absent (`req.body[field] === undefined`); for nullable attributes a
present key carries its own option. -/
structure EditBody where
  title : Option String
  description : Option String
  category : Option (Option Nat)
  amount_min : Option ℚ
  amount_avg : Option ℚ
  amount_max : Option ℚ
  requested_amount : Option (Option ℚ)
  start_date : Option (Option Int)
  end_date : Option (Option Int)
  attachments : Option (List String)
deriving DecidableEq, Repr

/-- Field-by-field application of the `updatable.forEach` loop, followed by the
save (which refreshes the mongoose-managed updatedAt timestamp). -/
def applyEdit (pe : PersonalExpense) (b : EditBody) (now : Int) : PersonalExpense :=
  { pe with
    title := b.title.getD pe.title
    description := b.description.getD pe.description
    category := b.category.getD pe.category
    amount_min := b.amount_min.getD pe.amount_min
    amount_avg := b.amount_avg.getD pe.amount_avg
    amount_max := b.amount_max.getD pe.amount_max
    requested_amount := b.requested_amount.getD pe.requested_amount
    start_date := b.start_date.getD pe.start_date
    end_date := b.end_date.getD pe.end_date
    attachments := b.attachments.getD pe.attachments
    updatedAt := now }

/-- PUT /:id (personalExpenses.js lines 246-293). -/
def putEdit (ok : Bool) (db : DB) (actor : Nat) (idp : IdParam) (b : EditBody)
    (now : Int) : Except ApiError PersonalExpense × DB :=
  match idp with
  | .malformed => (.error .notFound, db)
  | .valid rid =>
    match findPe db rid with
    | none => (.error .notFound, db)
    | some pe =>
      if pe.user ≠ actor then (.error .notOwner, db)
      else if pe.status ≠ .draft then (.error .invalidState, db)
      else
        let pe' := applyEdit pe b now
        let db1 := updatePe db pe'
        let db2 := createAudit ok db1 ⟨"personal_expense", rid, "update", some actor⟩
        (.ok pe', db2)

/-! ### POST /:id/submit -/

/-- The notify-admins loop of the submit handler (lines 324-351): one
notification (whose creation failure is swallowed) and one audit record per
admin account. -/
def notifyAdmins (ok : Bool) (db : DB) (rid : Nat) (actor : Nat) :
    List UserRec → DB
  | [] => db
  | a :: rest =>
    let db1 := addNotif db ⟨a.id, "New personal expense pending approval"⟩
    let db2 := createAudit ok db1 ⟨"notification", rid, "notify_admin_new_pending", some actor⟩
    notifyAdmins ok db2 rid actor rest

/-- POST /:id/submit (personalExpenses.js lines 299-365). -/
def postSubmit (ok : Bool) (db : DB) (actor : Nat) (idp : IdParam) (now : Int) :
    Except ApiError PersonalExpense × DB :=
  match idp with
  | .malformed => (.error .notFound, db)
  | .valid rid =>
    match findPe db rid with
    | none => (.error .notFound, db)
    | some pe =>
      if pe.user ≠ actor then (.error .notOwner, db)
      else if pe.status ≠ .draft then (.error .invalidState, db)
      else
        let pe' := { pe with status := Status.pending, updatedAt := now }
        let db1 := updatePe db pe'
        let db2 := createAudit ok db1 ⟨"personal_expense", rid, "submit", some actor⟩
        let admins := db2.users.filter (fun u => u.role == "adminA" || u.role == "adminB")
        let db3 := notifyAdmins ok db2 rid actor admins
        (.ok pe', db3)

/-! ### POST /:id/cancel -/

/-- POST /:id/cancel (personalExpenses.js lines 708-736). -/
def postCancel (ok : Bool) (db : DB) (actor : Nat) (idp : IdParam) (now : Int) :
    Except ApiError PersonalExpense × DB :=
  match idp with
  | .malformed => (.error .notFound, db)
  | .valid rid =>
    match findPe db rid with
    | none => (.error .notFound, db)
    | some pe =>
      if pe.user ≠ actor then (.error .notOwner, db)
      else if pe.status = .approved ∨ pe.status = .rejected ∨ pe.status = .cancelled then
        (.error .invalidState, db)
      else
        let pe' := { pe with status := Status.cancelled, updatedAt := now }
        let db1 := updatePe db pe'
        let db2 := createAudit ok db1 ⟨"personal_expense", rid, "cancelled", some actor⟩
        (.ok pe', db2)

/-! ### GET /:id/approvals -/

/-- GET /:id/approvals (personalExpenses.js lines 656-681). -/
def getApprovalsRoute (db : DB) (actor : Nat) (actorRole : String) (idp : IdParam) :
    Except ApiError (List Approval) × DB :=
  match idp with
  | .malformed => (.error .notFound, db)
  | .valid rid =>
    match findPe db rid with
    | none => (.error .notFound, db)
    | some pe =>
      if pe.user ≠ actor ∧
          ¬ (actorRole = "adminA" ∨ actorRole = "adminB" ∨ actorRole = "superadmin") then
        (.error .forbidden, db)
      else
        (.ok (db.approvals.filter (fun r => r.personal_expense == rid)), db)

/-! ### POST / (create draft) -/

/-- A category reference in a request body: an ObjectId-shaped value or a
name string (personalExpenses.js lines 179-206). -/
inductive CatParam
  | byId (id : Nat)
  | byName (name : String)
deriving DecidableEq, Repr

/-- The request body of POST /. -/
structure CreateBody where
  title : Option String
  description : Option String
  category : Option CatParam
  amount_min : Option ℚ
  amount_avg : Option ℚ
  amount_max : Option ℚ
  requested_amount : Option ℚ
  start_date : Option Int
  end_date : Option Int
  attachments : Option (List String)
deriving DecidableEq, Repr

/-- POST / (personalExpenses.js lines 152-240).  `!title` also fires on the
empty string (JS falsiness). -/
def postCreate (ok : Bool) (db : DB) (actor : Nat) (b : CreateBody) (now : Int) :
    Except ApiError PersonalExpense × DB :=
  if b.title = none ∨ b.title = some "" ∨ b.amount_min = none ∨ b.amount_avg = none ∨
      b.amount_max = none then
    (.error .validationError, db)
  else
    let resolved : Except ApiError (Option Nat × DB) :=
      match b.category with
      | none => .ok (none, db)
      | some (.byId cid) =>
        match db.categories.find? (fun c => c.id == cid) with
        | some c => .ok (some c.id, db)
        | none => .error .validationError
      | some (.byName nm) =>
        match db.categories.find? (fun c => lowerStr c.name == lowerStr nm) with
        | some c => .ok (some c.id, db)
        | none =>
          .ok (some db.nextId,
               { db with categories := db.categories ++ [⟨db.nextId, nm⟩],
                         nextId := db.nextId + 1 })
    match resolved with
    | .error e => (.error e, db)
    | .ok (catId, db1) =>
      let pe : PersonalExpense :=
        { id := db1.nextId
          user := actor
          title := b.title.getD ""
          description := b.description.getD ""
          category := catId
          amount_min := b.amount_min.getD 0
          amount_avg := b.amount_avg.getD 0
          amount_max := b.amount_max.getD 0
          requested_amount := b.requested_amount
          unit := none
          start_date := b.start_date
          end_date := b.end_date
          status := .draft
          attachments := b.attachments.getD []
          required_admins_count := 2
          approvals_count := 0
          approved_amount := none
          approved_at := none
          createdAt := now
          updatedAt := now }
      let db2 : DB := { db1 with pes := db1.pes ++ [pe], nextId := db1.nextId + 1 }
      let db3 := createAudit ok db2 ⟨"personal_expense", pe.id, "create", some actor⟩
      (.ok pe, db3)

/-! ### Aggregations (reports.js) -/

/-- Tag test of GET /remaining's expMatch (reports.js lines 183-203): the
entry "appears personal": note contains "Approved personal expense"
(case-insensitive) or title starts with "[Personal]" (case-sensitive). -/
def isPersonalDerived (en : ExpenseEntry) : Bool :=
  containsLower en.note "Approved personal expense" ||
    startsWithStr en.title "[Personal]"

/-- Accumuland `$ifNull: [{ $ifNull: ["$actual_amount", "$amount_avg"] }, 0]`. -/
def remainingEntryVal (en : ExpenseEntry) : JsNum :=
  match en.actual_amount with
  | some v => v
  | none =>
    match en.amount_avg with
    | some a => .fin a
    | none => .fin 0

/-- The personal-expense $match of GET /remaining (lines 221-231): approved
and approved_at or updatedAt or createdAt inside the inclusive range. -/
def peRangeMatch (s e : Int) (p : PersonalExpense) : Bool :=
  p.status == Status.approved &&
    ((match p.approved_at with
      | some d => decide (s ≤ d) && decide (d ≤ e)
      | none => false) ||
     (decide (s ≤ p.updatedAt) && decide (p.updatedAt ≤ e)) ||
     (decide (s ≤ p.createdAt) && decide (p.createdAt ≤ e)))

/-- Accumuland `$ifNull: [{ $ifNull: ["$approved_amount", "$requested_amount"] }, "$amount_avg"]`. -/
def peVal (p : PersonalExpense) : JsNum :=
  match p.approved_amount with
  | some v => v
  | none =>
    match p.requested_amount with
    | some r => .fin r
    | none => .fin p.amount_avg

/-- The ExpenseEntry aggregation of GET /remaining before the `|| 0`
extraction. -/
def remainingGlobalRaw (db : DB) (s e : Int) : JsNum :=
  sumJs ((db.entries.filter (fun en =>
    (decide (s ≤ en.date) && decide (en.date ≤ e)) && ! isPersonalDerived en)).map
      remainingEntryVal)

/-- The PersonalExpense aggregation of GET /remaining before the `|| 0`
extraction. -/
def remainingPersonalRaw (db : DB) (s e : Int) : JsNum :=
  sumJs ((db.pes.filter (peRangeMatch s e)).map peVal)

/-- The income aggregation of GET /remaining. -/
def remainingIncome (db : DB) (s e : Int) : ℚ :=
  (((db.incomes.filter (fun i => decide (s ≤ i.date) && decide (i.date ≤ e))).map
    (fun i => i.amount)).sum)

/-- The JSON payload of GET /remaining. -/
structure RemainingResult where
  start : Int
  endDate : Int
  totalIncome : ℚ
  totalGlobalExpenses : JsNum
  totalPersonalApproved : JsNum
  totalExpenses : JsNum
  remaining : JsNum
deriving DecidableEq, Repr

/-- GET /api/reports/remaining (reports.js lines 170-267), for the inclusive
range the source builds from the from/to query parameters. -/
def getRemaining (db : DB) (s e : Int) : RemainingResult :=
  let totalIncome := remainingIncome db s e
  let totalGlobalExpenses := JsNum.orZero (remainingGlobalRaw db s e)
  let totalPersonalApproved := JsNum.orZero (remainingPersonalRaw db s e)
  let totalExpenses := JsNum.add (JsNum.orZero totalGlobalExpenses)
    (JsNum.orZero totalPersonalApproved)
  let remaining := JsNum.sub (.fin totalIncome) (JsNum.orZero totalExpenses)
  ⟨s, e, totalIncome, totalGlobalExpenses, totalPersonalApproved, totalExpenses,
   remaining⟩

/-- The ExpenseEntry aggregation of computeMonthlyTotals (no tag exclusion;
`$ifNull: ["$actual_amount", 0]`). -/
def monthlyEntriesRaw (db : DB) (s e : Int) : JsNum :=
  sumJs ((db.entries.filter (fun en => decide (s ≤ en.date) && decide (en.date < e))).map
    (fun en => en.actual_amount.getD (.fin 0)))

/-- The PersonalExpense aggregation of computeMonthlyTotals
(`$ifNull: ["$approved_amount", 0]`, approved_at in the half-open month). -/
def monthlyPersonalRaw (db : DB) (s e : Int) : JsNum :=
  sumJs ((db.pes.filter (fun p => p.status == Status.approved &&
      (match p.approved_at with
       | some d => decide (s ≤ d) && decide (d < e)
       | none => false))).map
    (fun p => p.approved_amount.getD (.fin 0)))

/-- The JSON payload of computeMonthlyTotals. -/
structure MonthlyResult where
  start : Int
  endDate : Int
  incomeTotal : ℚ
  expenseTotalFromEntries : JsNum
  expenseTotalFromPersonal : JsNum
  totalExpenses : JsNum
  remaining : JsNum
deriving DecidableEq, Repr

/-- computeMonthlyTotals (personalExpenses.js lines 48-111 = reports.js lines
284-347), over the half-open month range [s, e) the source derives from the
YYYY-MM parameter. -/
def computeMonthlyTotals (db : DB) (s e : Int) : MonthlyResult :=
  let incomeTotal :=
    (((db.incomes.filter (fun i => decide (s ≤ i.date) && decide (i.date < e))).map
      (fun i => i.amount)).sum)
  let expenseTotalFromEntries := JsNum.orZero (monthlyEntriesRaw db s e)
  let expenseTotalFromPersonal := JsNum.orZero (monthlyPersonalRaw db s e)
  let totalExpenses := JsNum.add expenseTotalFromEntries expenseTotalFromPersonal
  let remaining := JsNum.sub (.fin incomeTotal) totalExpenses
  ⟨s, e, incomeTotal, expenseTotalFromEntries, expenseTotalFromPersonal,
   totalExpenses, remaining⟩

/-- Equality of two database states on every business collection — everything
except the diagnostic audit log. -/
def businessEq (d1 d2 : DB) : Prop :=
  d1.pes = d2.pes ∧ d1.approvals = d2.approvals ∧ d1.entries = d2.entries ∧
  d1.incomes = d2.incomes ∧ d1.categories = d2.categories ∧
  d1.users = d2.users ∧ d1.notifications = d2.notifications ∧
  d1.nextId = d2.nextId

/-! ### Concrete fixtures used by witnesses and counterexamples -/

/-- Fixture: a pending reimbursement request (required_admins_count 2). -/
def peA : PersonalExpense :=
  { id := 100, user := 10, title := "trip", description := "", category := none,
    amount_min := 50, amount_avg := 100, amount_max := 150,
    requested_amount := some 250, unit := none, start_date := none,
    end_date := none, status := .pending, attachments := [],
    required_admins_count := 2, approvals_count := 0, approved_amount := none,
    approved_at := none, createdAt := 0, updatedAt := 0 }

/-- Fixture: a draft request owned by user 10. -/
def peDraft : PersonalExpense :=
  { peA with id := 101, status := .draft }

/-- Fixture: an approved request with a finalized amount of 300 at time 50. -/
def peApproved : PersonalExpense :=
  { peA with id := 102, status := .approved, approved_amount := some (.fin 300),
             approved_at := some 50, createdAt := 50, updatedAt := 50 }

/-- Fixture: database holding one pending and one draft request. -/
def dbA : DB :=
  { pes := [peA, peDraft], approvals := [], entries := [], incomes := [],
    categories := [], users := [], notifications := [], audit := [],
    nextId := 200 }

/-- Fixture: one income of 1000 at time 50. -/
def incomeB : IncomeEntry :=
  { source_name := "salary", amount := 1000, currency := "AFN", note := "",
    date := 50, created_by := 1 }

/-- Fixture: the ledger entry materialized from `peApproved`. -/
def entryB : ExpenseEntry := mkPersonalEntry peApproved (.fin 300) 1 50

/-- Fixture: the aggregation scenario of §8 of the spec (one income 1000, one
tagged materialized entry of 300, one approved request of 300). -/
def dbB : DB :=
  { pes := [peApproved], approvals := [], entries := [entryB],
    incomes := [incomeB], categories := [], users := [], notifications := [],
    audit := [], nextId := 300 }

/-- Fixture: the empty database. -/
def dbE : DB :=
  { pes := [], approvals := [], entries := [], incomes := [], categories := [],
    users := [], notifications := [], audit := [], nextId := 0 }

/-- A sequence of approve calls (comment, raw amount, timestamp) all issued by
the same admin against the same request. -/
def sameAdminApproves (ok : Bool) (a rid : Nat) (db : DB) :
    List (String × Option JsNum × Int) → DB
  | [] => db
  | (c, raw, t) :: rest =>
    sameAdminApproves ok a rid (postApprove ok db a (.valid rid) "approve" c raw t).2 rest

/-! ### Helper lemmas -/

@[simp] theorem createAudit_pes (ok : Bool) (db : DB) (r : AuditRecord) :
    (createAudit ok db r).pes = db.pes := by cases ok <;> rfl

@[simp] theorem createAudit_approvals (ok : Bool) (db : DB) (r : AuditRecord) :
    (createAudit ok db r).approvals = db.approvals := by cases ok <;> rfl

@[simp] theorem createAudit_entries (ok : Bool) (db : DB) (r : AuditRecord) :
    (createAudit ok db r).entries = db.entries := by cases ok <;> rfl

@[simp] theorem createAudit_incomes (ok : Bool) (db : DB) (r : AuditRecord) :
    (createAudit ok db r).incomes = db.incomes := by cases ok <;> rfl

@[simp] theorem createAudit_categories (ok : Bool) (db : DB) (r : AuditRecord) :
    (createAudit ok db r).categories = db.categories := by cases ok <;> rfl

@[simp] theorem createAudit_users (ok : Bool) (db : DB) (r : AuditRecord) :
    (createAudit ok db r).users = db.users := by cases ok <;> rfl

@[simp] theorem createAudit_notifications (ok : Bool) (db : DB) (r : AuditRecord) :
    (createAudit ok db r).notifications = db.notifications := by cases ok <;> rfl

@[simp] theorem createAudit_nextId (ok : Bool) (db : DB) (r : AuditRecord) :
    (createAudit ok db r).nextId = db.nextId := by cases ok <;> rfl

@[simp] theorem findPe_createAudit (ok : Bool) (db : DB) (r : AuditRecord) (rid : Nat) :
    findPe (createAudit ok db r) rid = findPe db rid := by cases ok <;> rfl

@[simp] theorem updatePe_pes (db : DB) (pe : PersonalExpense) :
    (updatePe db pe).pes =
      db.pes.map (fun p => if p.id == pe.id then pe else p) := rfl

@[simp] theorem updatePe_approvals (db : DB) (pe : PersonalExpense) :
    (updatePe db pe).approvals = db.approvals := rfl

@[simp] theorem updatePe_entries (db : DB) (pe : PersonalExpense) :
    (updatePe db pe).entries = db.entries := rfl

@[simp] theorem updatePe_audit (db : DB) (pe : PersonalExpense) :
    (updatePe db pe).audit = db.audit := rfl

@[simp] theorem updatePe_notifications (db : DB) (pe : PersonalExpense) :
    (updatePe db pe).notifications = db.notifications := rfl

/-- Re-reading a saved document by the id through which it was stored. -/
theorem find?_map_update (l : List PersonalExpense) (rid : Nat)
    (pe q : PersonalExpense) (hfind : l.find? (fun p => p.id == rid) = some pe)
    (hq : q.id = rid) :
    (l.map (fun p => if p.id == q.id then q else p)).find? (fun p => p.id == rid) =
      some q := by
  subst hq
  induction l with
  | nil => simp at hfind
  | cons h t ih =>
    by_cases hh : h.id = q.id
    · simp only [List.map_cons]
      rw [if_pos (by simp [hh])]
      simp
    · have hfalse : (h.id == q.id) = false := by simp [hh]
      rw [List.find?_cons_of_neg _ (by simp [hfalse])] at hfind
      simp only [List.map_cons]
      rw [if_neg (by simp [hh])]
      rw [List.find?_cons_of_neg _ (by simp [hfalse])]
      exact ih hfind

theorem findPe_updatePe (db : DB) (rid : Nat) (pe q : PersonalExpense)
    (hfind : findPe db rid = some pe) (hq : q.id = rid) :
    findPe (updatePe db q) rid = some q :=
  find?_map_update db.pes rid pe q hfind hq

theorem chPre_self_append (p y : List Char) : chPre p (p ++ y) = true := by
  induction p with
  | nil => rfl
  | cons a as ih => simp [chPre, ih]

theorem hasSub_append (x p y : List Char) : hasSub (x ++ p ++ y) p = true := by
  unfold hasSub
  rw [List.any_eq_true]
  refine ⟨x.length, ?_, ?_⟩
  · rw [List.mem_range]
    simp only [List.length_append]
    omega
  · rw [List.append_assoc, List.drop_left]
    exact chPre_self_append p y

theorem lowerStr_append (a b : String) :
    lowerStr (a ++ b) = lowerStr a ++ lowerStr b := by
  simp [lowerStr, String.data_append]

/-- The note a materialization writes matches its own dedup regex. -/
theorem personalNote_self_tag (idStr : String) :
    containsLower (personalNote idStr) idStr = true := by
  unfold containsLower personalNote
  rw [lowerStr_append, lowerStr_append]
  exact hasSub_append _ _ _

/-- The note a materialization writes matches the aggregation-exclusion regex. -/
theorem personalNote_phrase_tag (idStr : String) :
    containsLower (personalNote idStr) "Approved personal expense" = true := by
  unfold containsLower personalNote
  rw [lowerStr_append, lowerStr_append]
  have := hasSub_append ([] : List Char)
    (lowerStr "Approved personal expense")
    (lowerStr " (id: " ++ lowerStr idStr ++ lowerStr ")")
  simpa [List.append_assoc] using this

/-- The title a materialization writes matches the title-exclusion regex. -/
theorem personalTitle_marker (t : String) :
    startsWithStr (personalTitle t) "[Personal]" = true := by
  unfold startsWithStr personalTitle
  rw [String.data_append, String.data_append, List.append_assoc]
  exact chPre_self_append _ _

/-- A materialized entry is recognized as personal-derived by GET /remaining. -/
theorem mkPersonalEntry_isPersonalDerived (pe : PersonalExpense) (a : JsNum)
    (ad : Nat) (t : Int) : isPersonalDerived (mkPersonalEntry pe a ad t) = true := by
  simp [isPersonalDerived, mkPersonalEntry, personalNote_phrase_tag]

theorem sumJs_append (l : List JsNum) (x : JsNum) :
    sumJs (l ++ [x]) = JsNum.add (sumJs l) x := by
  simp [sumJs, List.foldl_append]

/-- A nonempty deduplicated list whose base has a single possible value. -/
theorem dedup_length_le_one {l : List Nat} (a : Nat) (h : ∀ x ∈ l, x = a) :
    l.dedup.length ≤ 1 := by
  cases hd : l.dedup with
  | nil => simp
  | cons b t =>
    have hnd := List.nodup_dedup l
    rw [hd] at hnd
    have hb : b = a := h b (List.mem_dedup.mp (by rw [hd]; exact List.mem_cons_self b t))
    cases t with
    | nil => simp
    | cons c t2 =>
      have hc : c = a := h c (List.mem_dedup.mp (by rw [hd]; simp))
      exfalso
      rcases List.nodup_cons.mp hnd with ⟨hbn, _⟩
      exact hbn (by simp [hb, hc])

/-- Two distinct members force at least two deduplicated values. -/
theorem two_le_dedup_length {l : List Nat} {a b : Nat} (ha : a ∈ l) (hb : b ∈ l)
    (hab : a ≠ b) : 2 ≤ l.dedup.length := by
  have ha' : a ∈ l.dedup := List.mem_dedup.mpr ha
  have hb' : b ∈ l.dedup := List.mem_dedup.mpr hb
  have hnd := List.nodup_dedup l
  have hsub : ({a, b} : Finset Nat) ⊆ l.dedup.toFinset := by
    intro x hx
    rcases Finset.mem_insert.mp hx with rfl | hx
    · exact List.mem_toFinset.mpr ha'
    · rw [Finset.mem_singleton] at hx
      subst hx
      exact List.mem_toFinset.mpr hb'
  calc 2 = ({a, b} : Finset Nat).card := (Finset.card_pair hab).symm
    _ ≤ l.dedup.toFinset.card := Finset.card_le_card hsub
    _ = l.dedup.length := List.toFinset_card_of_nodup hnd

/-- A fresh entry created by the materializer carries its own dedup tag. -/
theorem mkPersonalEntry_self_tag (pe : PersonalExpense) (a : JsNum) (ad : Nat)
    (t : Int) :
    containsLower (mkPersonalEntry pe a ad t).note (toString pe.id) = true := by
  simp [mkPersonalEntry, personalNote_self_tag]

/-- When no existing entry is tagged, the materializer creates the entry. -/
theorem materializeEntry_of_untagged (es : List ExpenseEntry)
    (pe : PersonalExpense) (a : JsNum) (ad : Nat) (t : Int)
    (h : es.any (fun en => containsLower en.note (toString pe.id)) = false) :
    materializeEntry es pe a ad t = es ++ [mkPersonalEntry pe a ad t] := by
  rw [materializeEntry, if_neg (by simp [h])]

/-- A second materialization of the same request is always a no-op. -/
theorem materializeEntry_idem (es : List ExpenseEntry) (pe : PersonalExpense)
    (a1 a2 : JsNum) (ad1 ad2 : Nat) (t1 t2 : Int) :
    materializeEntry (materializeEntry es pe a1 ad1 t1) pe a2 ad2 t2 =
      materializeEntry es pe a1 ad1 t1 := by
  by_cases h : es.any (fun en => containsLower en.note (toString pe.id)) = true
  · have h1 : materializeEntry es pe a1 ad1 t1 = es := by
      rw [materializeEntry, if_pos h]
    rw [h1, materializeEntry, if_pos h]
  · have hf : es.any (fun en => containsLower en.note (toString pe.id)) = false := by
      simpa using h
    have h1 := materializeEntry_of_untagged es pe a1 ad1 t1 hf
    have h2 : (es ++ [mkPersonalEntry pe a1 ad1 t1]).any
        (fun en => containsLower en.note (toString pe.id)) = true := by
      simp [List.any_append, mkPersonalEntry_self_tag]
    rw [h1, materializeEntry, if_pos h2]

@[simp] theorem upsertApproval_pes (db : DB) (rid adm : Nat) (dec : Decision)
    (c : String) (amt : Option JsNum) (now : Int) :
    (upsertApproval db rid adm dec c amt now).pes = db.pes := by
  unfold upsertApproval
  split <;> rfl

@[simp] theorem upsertApproval_entries (db : DB) (rid adm : Nat) (dec : Decision)
    (c : String) (amt : Option JsNum) (now : Int) :
    (upsertApproval db rid adm dec c amt now).entries = db.entries := by
  unfold upsertApproval
  split <;> rfl

@[simp] theorem upsertApproval_notifications (db : DB) (rid adm : Nat)
    (dec : Decision) (c : String) (amt : Option JsNum) (now : Int) :
    (upsertApproval db rid adm dec c amt now).notifications = db.notifications := by
  unfold upsertApproval
  split <;> rfl

@[simp] theorem upsertApproval_audit (db : DB) (rid adm : Nat) (dec : Decision)
    (c : String) (amt : Option JsNum) (now : Int) :
    (upsertApproval db rid adm dec c amt now).audit = db.audit := by
  unfold upsertApproval
  split <;> rfl

@[simp] theorem findPe_upsertApproval (db : DB) (rid adm : Nat) (dec : Decision)
    (c : String) (amt : Option JsNum) (now : Int) (rid' : Nat) :
    findPe (upsertApproval db rid adm dec c amt now) rid' = findPe db rid' := by
  unfold findPe
  rw [upsertApproval_pes]

@[simp] theorem findPe_addNotif (db : DB) (n : Notif) (rid : Nat) :
    findPe (addNotif db n) rid = findPe db rid := rfl

@[simp] theorem findPe_setEntries (db : DB) (x : List ExpenseEntry) (rid : Nat) :
    findPe (setEntries db x) rid = findPe db rid := rfl

@[simp] theorem findPe_setApprovals (db : DB) (x : List Approval) (rid : Nat) :
    findPe (setApprovals db x) rid = findPe db rid := rfl

@[simp] theorem setApprovals_approvals (db : DB) (x : List Approval) :
    (setApprovals db x).approvals = x := rfl

@[simp] theorem setApprovals_pes (db : DB) (x : List Approval) :
    (setApprovals db x).pes = db.pes := rfl

@[simp] theorem setApprovals_entries (db : DB) (x : List Approval) :
    (setApprovals db x).entries = db.entries := rfl

@[simp] theorem setApprovals_notifications (db : DB) (x : List Approval) :
    (setApprovals db x).notifications = db.notifications := rfl

@[simp] theorem setApprovals_audit (db : DB) (x : List Approval) :
    (setApprovals db x).audit = db.audit := rfl

@[simp] theorem setEntries_entries (db : DB) (x : List ExpenseEntry) :
    (setEntries db x).entries = x := rfl

@[simp] theorem setEntries_pes (db : DB) (x : List ExpenseEntry) :
    (setEntries db x).pes = db.pes := rfl

@[simp] theorem setEntries_approvals (db : DB) (x : List ExpenseEntry) :
    (setEntries db x).approvals = db.approvals := rfl

@[simp] theorem setEntries_notifications (db : DB) (x : List ExpenseEntry) :
    (setEntries db x).notifications = db.notifications := rfl

@[simp] theorem setEntries_audit (db : DB) (x : List ExpenseEntry) :
    (setEntries db x).audit = db.audit := rfl

@[simp] theorem addNotif_pes (db : DB) (n : Notif) :
    (addNotif db n).pes = db.pes := rfl

@[simp] theorem addNotif_approvals (db : DB) (n : Notif) :
    (addNotif db n).approvals = db.approvals := rfl

@[simp] theorem addNotif_entries (db : DB) (n : Notif) :
    (addNotif db n).entries = db.entries := rfl

@[simp] theorem addNotif_notifications (db : DB) (n : Notif) :
    (addNotif db n).notifications = db.notifications ++ [n] := rfl

@[simp] theorem addNotif_audit (db : DB) (n : Notif) :
    (addNotif db n).audit = db.audit := rfl

@[simp] theorem addNotif_incomes (db : DB) (n : Notif) :
    (addNotif db n).incomes = db.incomes := rfl

@[simp] theorem addNotif_categories (db : DB) (n : Notif) :
    (addNotif db n).categories = db.categories := rfl

@[simp] theorem addNotif_users (db : DB) (n : Notif) :
    (addNotif db n).users = db.users := rfl

@[simp] theorem addNotif_nextId (db : DB) (n : Notif) :
    (addNotif db n).nextId = db.nextId := rfl

@[simp] theorem updatePe_incomes (db : DB) (pe : PersonalExpense) :
    (updatePe db pe).incomes = db.incomes := rfl

@[simp] theorem updatePe_categories (db : DB) (pe : PersonalExpense) :
    (updatePe db pe).categories = db.categories := rfl

@[simp] theorem updatePe_users (db : DB) (pe : PersonalExpense) :
    (updatePe db pe).users = db.users := rfl

@[simp] theorem updatePe_nextId (db : DB) (pe : PersonalExpense) :
    (updatePe db pe).nextId = db.nextId := rfl

@[simp] theorem setApprovals_incomes (db : DB) (x : List Approval) :
    (setApprovals db x).incomes = db.incomes := rfl

@[simp] theorem setApprovals_categories (db : DB) (x : List Approval) :
    (setApprovals db x).categories = db.categories := rfl

@[simp] theorem setApprovals_users (db : DB) (x : List Approval) :
    (setApprovals db x).users = db.users := rfl

@[simp] theorem setApprovals_nextId (db : DB) (x : List Approval) :
    (setApprovals db x).nextId = db.nextId := rfl

@[simp] theorem setEntries_incomes (db : DB) (x : List ExpenseEntry) :
    (setEntries db x).incomes = db.incomes := rfl

@[simp] theorem setEntries_categories (db : DB) (x : List ExpenseEntry) :
    (setEntries db x).categories = db.categories := rfl

@[simp] theorem setEntries_users (db : DB) (x : List ExpenseEntry) :
    (setEntries db x).users = db.users := rfl

@[simp] theorem setEntries_nextId (db : DB) (x : List ExpenseEntry) :
    (setEntries db x).nextId = db.nextId := rfl

/-- Unfolding equation of the upsert when the (request, admin) key exists. -/
theorem upsertApproval_eq_of_hasRow {db : DB} {rid adm : Nat} {dec : Decision}
    {c : String} {amt : Option JsNum} {now : Int}
    (h : db.approvals.any
      (fun r => r.personal_expense == rid && r.admin_user == adm) = true) :
    upsertApproval db rid adm dec c amt now =
      setApprovals db (db.approvals.map (fun r =>
          if r.personal_expense == rid && r.admin_user == adm then
            { r with decision := dec, comment := c, decided_at := now,
                     approved_amount := amt }
          else r)) := by
  unfold upsertApproval
  rw [if_pos h]

/-- Unfolding equation of the upsert when no row of that admin exists yet. -/
theorem upsertApproval_eq_of_fresh {db : DB} {rid adm : Nat} {dec : Decision}
    {c : String} {amt : Option JsNum} {now : Int}
    (h : db.approvals.any
      (fun r => r.personal_expense == rid && r.admin_user == adm) = false) :
    upsertApproval db rid adm dec c amt now =
      setApprovals db (db.approvals ++
          [{ personal_expense := rid, admin_user := adm, decision := dec,
             comment := c, approved_amount := amt, decided_at := now }]) := by
  unfold upsertApproval
  rw [if_neg (by simp [h])]

@[simp] theorem approveRowsFor_set (db : DB) (x : List Approval) (rid : Nat) :
    approveRowsFor (setApprovals db x) rid =
      x.filter (fun r => r.personal_expense == rid && r.decision == Decision.approve) :=
  rfl

/-- An approve row of a different admin survives the upsert untouched. -/
theorem approveRowsFor_upsert_other {db : DB} {rid adm : Nat} {dec : Decision}
    {c : String} {amt : Option JsNum} {now : Int} {r : Approval}
    (hr : r ∈ approveRowsFor db rid) (hne : r.admin_user ≠ adm) :
    r ∈ approveRowsFor (upsertApproval db rid adm dec c amt now) rid := by
  obtain ⟨hmem, hpred⟩ := List.mem_filter.mp hr
  have hb : (r.admin_user == adm) = false := by simp [hne]
  by_cases hany : db.approvals.any
      (fun r => r.personal_expense == rid && r.admin_user == adm) = true
  · rw [upsertApproval_eq_of_hasRow hany, approveRowsFor_set]
    refine List.mem_filter.mpr ⟨?_, hpred⟩
    have himg := List.mem_map_of_mem (fun r' =>
      if r'.personal_expense == rid && r'.admin_user == adm then
        { r' with decision := dec, comment := c, decided_at := now,
                  approved_amount := amt }
      else r') hmem
    simpa [hb] using himg
  · rw [upsertApproval_eq_of_fresh (by simpa using hany), approveRowsFor_set]
    exact List.mem_filter.mpr ⟨List.mem_append_left _ hmem, hpred⟩

/-- After an approve upsert by `adm`, some current approve row belongs to
`adm` and carries the freshly submitted amount. -/
theorem approveRowsFor_upsert_self (db : DB) (rid adm : Nat) (c : String)
    (amt : Option JsNum) (now : Int) :
    ∃ r ∈ approveRowsFor (upsertApproval db rid adm .approve c amt now) rid,
      r.admin_user = adm ∧ r.approved_amount = amt := by
  by_cases hany : db.approvals.any
      (fun r => r.personal_expense == rid && r.admin_user == adm) = true
  · obtain ⟨r0, hr0mem, hr0key⟩ := List.any_eq_true.mp hany
    rw [Bool.and_eq_true] at hr0key
    rw [upsertApproval_eq_of_hasRow hany, approveRowsFor_set]
    refine ⟨{ r0 with decision := Decision.approve, comment := c, decided_at := now, approved_amount := amt }, ?_, by simpa using hr0key.2, rfl⟩
    refine List.mem_filter.mpr ⟨?_, by simp [hr0key.1]⟩
    have himg := List.mem_map_of_mem (fun r' =>
      if r'.personal_expense == rid && r'.admin_user == adm then
        { r' with decision := Decision.approve, comment := c, decided_at := now,
                  approved_amount := amt }
      else r') hr0mem
    simpa [hr0key.1, hr0key.2] using himg
  · rw [upsertApproval_eq_of_fresh (by simpa using hany), approveRowsFor_set]
    refine ⟨⟨rid, adm, .approve, c, amt, now⟩, ?_, rfl, rfl⟩
    exact List.mem_filter.mpr ⟨List.mem_append_right _ (by simp), by simp⟩

/-- If every current approve row belongs to admin `a`, the same holds after
any upsert by `a`. -/
theorem approveRowsFor_upsert_closed {db : DB} {rid a : Nat} {dec : Decision}
    {c : String} {amt : Option JsNum} {now : Int}
    (h : ∀ r ∈ approveRowsFor db rid, r.admin_user = a) :
    ∀ r ∈ approveRowsFor (upsertApproval db rid a dec c amt now) rid,
      r.admin_user = a := by
  intro r hr
  by_cases hany : db.approvals.any
      (fun r => r.personal_expense == rid && r.admin_user == a) = true
  · rw [upsertApproval_eq_of_hasRow hany, approveRowsFor_set] at hr
    obtain ⟨hmem, hpred⟩ := List.mem_filter.mp hr
    obtain ⟨r0, hr0, heq⟩ := List.mem_map.mp hmem
    by_cases hkey : (r0.personal_expense == rid && r0.admin_user == a) = true
    · rw [if_pos hkey] at heq
      rw [Bool.and_eq_true] at hkey
      rw [← heq]
      simpa using hkey.2
    · rw [if_neg hkey] at heq
      subst heq
      exact h r0 (List.mem_filter.mpr ⟨hr0, hpred⟩)
  · rw [upsertApproval_eq_of_fresh (by simpa using hany), approveRowsFor_set] at hr
    obtain ⟨hmem, hpred⟩ := List.mem_filter.mp hr
    rcases List.mem_append.mp hmem with h1 | h1
    · exact h r (List.mem_filter.mpr ⟨h1, hpred⟩)
    · rw [List.mem_singleton.mp h1]

/-- A repeat vote overwrites in place: the approvals collection keeps its
size when the (request, admin) key already exists. -/
theorem upsertApproval_length_of_hasRow {db : DB} {rid adm : Nat}
    {dec : Decision} {c : String} {amt : Option JsNum} {now : Int}
    (h : db.approvals.any
      (fun r => r.personal_expense == rid && r.admin_user == adm) = true) :
    (upsertApproval db rid adm dec c amt now).approvals.length =
      db.approvals.length := by
  rw [upsertApproval_eq_of_hasRow h]
  simp

/-- A first vote inserts exactly one new row. -/
theorem upsertApproval_length_of_fresh {db : DB} {rid adm : Nat}
    {dec : Decision} {c : String} {amt : Option JsNum} {now : Int}
    (h : db.approvals.any
      (fun r => r.personal_expense == rid && r.admin_user == adm) = false) :
    (upsertApproval db rid adm dec c amt now).approvals.length =
      db.approvals.length + 1 := by
  rw [upsertApproval_eq_of_fresh h]
  simp

/-- After the upsert, every row keyed (rid, adm) carries the freshly submitted
decision data. -/
theorem upsertApproval_key_rows (db : DB) (rid adm : Nat) (dec : Decision)
    (c : String) (amt : Option JsNum) (now : Int) :
    ∀ r ∈ (upsertApproval db rid adm dec c amt now).approvals,
      r.personal_expense = rid → r.admin_user = adm →
        r.decision = dec ∧ r.comment = c ∧ r.approved_amount = amt ∧
          r.decided_at = now := by
  intro r hr hpe hadm
  by_cases hany : db.approvals.any
      (fun r => r.personal_expense == rid && r.admin_user == adm) = true
  · rw [upsertApproval_eq_of_hasRow hany] at hr
    obtain ⟨r0, hr0, heq⟩ := List.mem_map.mp hr
    by_cases hkey : (r0.personal_expense == rid && r0.admin_user == adm) = true
    · rw [if_pos hkey] at heq
      rw [← heq]
      exact ⟨rfl, rfl, rfl, rfl⟩
    · rw [if_neg hkey] at heq
      subst heq
      exact absurd (by simp [hpe, hadm]) hkey
  · rw [upsertApproval_eq_of_fresh (by simpa using hany)] at hr
    rcases List.mem_append.mp hr with h1 | h1
    · exfalso
      exact hany (List.any_eq_true.mpr ⟨r, h1, by simp [hpe, hadm]⟩)
    · rw [List.mem_singleton.mp h1]
      exact ⟨rfl, rfl, rfl, rfl⟩

/-- Outcome of the reject branch: the request is rejected immediately,
whatever the current approvals are. -/
theorem decideResolve_reject (ok : Bool) (db1 : DB) (pe : PersonalExpense)
    (rid adm : Nat) (now : Int)
    (hfind1 : findPe db1 rid = some pe) (hid : pe.id = rid) :
    (decideResolve ok db1 pe rid adm .reject now).1 = .ok .rejectedResp ∧
    findPe (decideResolve ok db1 pe rid adm .reject now).2 rid =
      some { pe with status := Status.rejected,
                     approvals_count := (approveRowsFor db1 rid).length,
                     updatedAt := now } ∧
    (decideResolve ok db1 pe rid adm .reject now).2.approvals = db1.approvals := by
  refine ⟨rfl, ?_, ?_⟩
  · simp only [decideResolve]
    simp only [findPe_createAudit, findPe_addNotif]
    exact findPe_updatePe _ rid pe _ (by simpa using hfind1) (by simp [hid])
  · simp only [decideResolve]
    simp only [createAudit_approvals, addNotif_approvals, updatePe_approvals]

/-- Outcome of the approve branch when quorum is not yet reached. -/
theorem decideResolve_approve_pending (ok : Bool) (db1 : DB)
    (pe : PersonalExpense) (rid adm : Nat) (now : Int)
    (hfind1 : findPe db1 rid = some pe) (hid : pe.id = rid)
    (hlt : ((approveRowsFor db1 rid).map (fun r => r.admin_user)).dedup.length <
      (if pe.required_admins_count = 0 then 2 else pe.required_admins_count)) :
    (decideResolve ok db1 pe rid adm .approve now).1 =
      .ok (.stillPending
        ((approveRowsFor db1 rid).map (fun r => r.admin_user)).dedup.length
        pe.required_admins_count) ∧
    findPe (decideResolve ok db1 pe rid adm .approve now).2 rid =
      some { pe with approvals_count := (approveRowsFor db1 rid).length,
                     updatedAt := now } ∧
    (decideResolve ok db1 pe rid adm .approve now).2.approvals = db1.approvals := by
  have hnot : ¬ (((approveRowsFor db1 rid).map (fun r => r.admin_user)).dedup.length ≥
      (if pe.required_admins_count = 0 then 2 else pe.required_admins_count)) := by
    omega
  refine ⟨?_, ?_, ?_⟩
  · simp only [decideResolve]
    rw [if_neg hnot]
  · simp only [decideResolve]
    rw [if_neg hnot]
    simp only [findPe_createAudit]
    exact findPe_updatePe _ rid pe _ (by simpa using hfind1) (by simp [hid])
  · simp only [decideResolve]
    rw [if_neg hnot]
    simp only [createAudit_approvals, updatePe_approvals]

/-- Outcome of the approve branch on quorum: finalization with the resolved
amount computed from the current approve rows. -/
theorem decideResolve_approve_final (ok : Bool) (db1 : DB)
    (pe : PersonalExpense) (rid adm : Nat) (now : Int)
    (hfind1 : findPe db1 rid = some pe) (hid : pe.id = rid)
    (hge : ((approveRowsFor db1 rid).map (fun r => r.admin_user)).dedup.length ≥
      (if pe.required_admins_count = 0 then 2 else pe.required_admins_count)) :
    (decideResolve ok db1 pe rid adm .approve now).1 =
      .ok (.approvedFinal (finalApprovedAmount
        ((approveRowsFor db1 rid).filterMap (fun r => r.approved_amount))
        pe.requested_amount pe.amount_avg)) ∧
    findPe (decideResolve ok db1 pe rid adm .approve now).2 rid =
      some { pe with approvals_count := (approveRowsFor db1 rid).length,
                     updatedAt := now, status := Status.approved,
                     approved_amount := some (finalApprovedAmount
                       ((approveRowsFor db1 rid).filterMap (fun r => r.approved_amount))
                       pe.requested_amount pe.amount_avg),
                     approved_at := some now } ∧
    (decideResolve ok db1 pe rid adm .approve now).2.approvals = db1.approvals := by
  refine ⟨?_, ?_, ?_⟩
  · simp only [decideResolve]
    rw [if_pos hge]
  · simp only [decideResolve]
    rw [if_pos hge]
    simp only [findPe_createAudit, findPe_setEntries, findPe_addNotif]
    exact findPe_updatePe _ rid _ _
      (findPe_updatePe _ rid _ _ (by simpa using hfind1) (by simp [hid]))
      (by simp [hid])
  · simp only [decideResolve]
    rw [if_pos hge]
    simp only [createAudit_approvals, setEntries_approvals, addNotif_approvals,
      updatePe_approvals]

/-- Guard reduction: on a pending request the decide endpoint runs the upsert
and the resolution tail. -/
theorem postApproveChecked_eq (ok : Bool) (db : DB) (adm rid : Nat)
    (dec : Decision) (c : String) (amt : Option JsNum) (now : Int)
    (pe : PersonalExpense) (hfind : findPe db rid = some pe)
    (hst : pe.status = .pending) :
    postApproveChecked ok db adm rid dec c amt now =
      decideResolve ok (upsertApproval db rid adm dec c amt now) pe rid adm dec
        now := by
  unfold postApproveChecked
  simp only [hfind]
  rw [if_neg (by simp [hst])]

/-- Guard reduction: a non-pending request is refused with no state change. -/
theorem postApproveChecked_not_pending (ok : Bool) (db : DB) (adm rid : Nat)
    (dec : Decision) (c : String) (amt : Option JsNum) (now : Int)
    (pe : PersonalExpense) (hfind : findPe db rid = some pe)
    (hst : pe.status ≠ .pending) :
    postApproveChecked ok db adm rid dec c amt now = (.error .invalidState, db) := by
  unfold postApproveChecked
  simp only [hfind]
  rw [if_pos hst]

/-- Guard reduction: an unknown id is refused with no state change. -/
theorem postApproveChecked_not_found (ok : Bool) (db : DB) (adm rid : Nat)
    (dec : Decision) (c : String) (amt : Option JsNum) (now : Int)
    (hfind : findPe db rid = none) :
    postApproveChecked ok db adm rid dec c amt now = (.error .notFound, db) := by
  unfold postApproveChecked
  simp only [hfind]

/-- A validated approve call dispatches to the checked body. -/
theorem postApprove_approve_eq (ok : Bool) (db : DB) (adm rid : Nat)
    (c : String) (v : JsNum) (now : Int) (hv : v.isNaN = false) :
    postApprove ok db adm (.valid rid) "approve" c (some v) now =
      postApproveChecked ok db adm rid .approve c (some v) now := by
  simp only [postApprove]
  rw [if_neg (by decide)]
  simp [hv]

/-- A reject call dispatches to the checked body with the raw amount. -/
theorem postApprove_reject_eq (ok : Bool) (db : DB) (adm rid : Nat)
    (c : String) (raw : Option JsNum) (now : Int) :
    postApprove ok db adm (.valid rid) "reject" c raw now =
      postApproveChecked ok db adm rid .reject c raw now := by
  simp only [postApprove]
  rw [if_neg (by decide), if_neg (by decide)]

/-- A malformed id is rejected up front. -/
theorem postApprove_malformed (ok : Bool) (db : DB) (adm : Nat) (d c : String)
    (raw : Option JsNum) (now : Int) :
    postApprove ok db adm .malformed d c raw now = (.error .notFound, db) := rfl

/-- An unknown decision string is rejected before the request is loaded. -/
theorem postApprove_invalid_decision (ok : Bool) (db : DB) (adm rid : Nat)
    (d c : String) (raw : Option JsNum) (now : Int)
    (h1 : d ≠ "approve") (h2 : d ≠ "reject") :
    postApprove ok db adm (.valid rid) d c raw now =
      (.error .validationError, db) := by
  simp only [postApprove]
  rw [if_pos (by simp [h1, h2])]

/-- An approve call without an amount is rejected before the request is
loaded. -/
theorem postApprove_approve_none (ok : Bool) (db : DB) (adm rid : Nat)
    (c : String) (now : Int) :
    postApprove ok db adm (.valid rid) "approve" c none now =
      (.error .validationError, db) := by
  simp only [postApprove]
  rw [if_neg (by decide)]
  simp

/-- An approve call whose amount coerces to NaN is rejected before the request
is loaded. -/
theorem postApprove_approve_nan (ok : Bool) (db : DB) (adm rid : Nat)
    (c : String) (v : JsNum) (now : Int) (hv : v.isNaN = true) :
    postApprove ok db adm (.valid rid) "approve" c (some v) now =
      (.error .validationError, db) := by
  simp only [postApprove]
  rw [if_neg (by decide)]
  simp [hv]

/-- The resolution tail never touches the approvals collection again. -/
theorem decideResolve_approvals (ok : Bool) (db1 : DB) (pe : PersonalExpense)
    (rid adm : Nat) (dec : Decision) (now : Int) :
    (decideResolve ok db1 pe rid adm dec now).2.approvals = db1.approvals := by
  cases dec
  · simp only [decideResolve]
    split <;> split <;>
      simp only [createAudit_approvals, setEntries_approvals, addNotif_approvals,
        updatePe_approvals]
  · simp only [decideResolve]
    simp only [createAudit_approvals, addNotif_approvals, updatePe_approvals]

/-- The id under which a loaded request was found. -/
theorem findPe_id {db : DB} {rid : Nat} {pe : PersonalExpense}
    (h : findPe db rid = some pe) : pe.id = rid := by
  have h' : db.pes.find? (fun p => p.id == rid) = some pe := h
  simpa using List.find?_some h'

/-- One approve call by admin `a`, while every current approve row already
belongs to `a`, leaves the request pending and preserves that property. -/
theorem sameAdmin_step (ok : Bool) (db : DB) (a rid : Nat)
    (pe : PersonalExpense) (c : String) (raw : Option JsNum) (now : Int)
    (hfind : findPe db rid = some pe) (hst : pe.status = .pending)
    (hreq : pe.required_admins_count = 2)
    (hrows : ∀ r ∈ approveRowsFor db rid, r.admin_user = a) :
    ∃ pe', findPe (postApprove ok db a (.valid rid) "approve" c raw now).2 rid =
        some pe' ∧ pe'.status = .pending ∧ pe'.required_admins_count = 2 ∧
      (∀ r ∈ approveRowsFor (postApprove ok db a (.valid rid) "approve" c raw now).2 rid,
        r.admin_user = a) := by
  cases raw with
  | none =>
    rw [postApprove_approve_none]
    exact ⟨pe, hfind, hst, hreq, hrows⟩
  | some v =>
    by_cases hv : v.isNaN = true
    · rw [postApprove_approve_nan ok db a rid c v now hv]
      exact ⟨pe, hfind, hst, hreq, hrows⟩
    · have hv' : v.isNaN = false := by simpa using hv
      have hid := findPe_id hfind
      rw [postApprove_approve_eq ok db a rid c v now hv',
          postApproveChecked_eq ok db a rid .approve c (some v) now pe hfind hst]
      have hclosed := @approveRowsFor_upsert_closed db rid a .approve c (some v)
        now hrows
      have hle : ((approveRowsFor (upsertApproval db rid a .approve c (some v) now)
          rid).map (fun r => r.admin_user)).dedup.length ≤ 1 := by
        apply dedup_length_le_one a
        intro x hx
        obtain ⟨r, hr, rfl⟩ := List.mem_map.mp hx
        exact hclosed r hr
      have hlt : ((approveRowsFor (upsertApproval db rid a .approve c (some v) now)
          rid).map (fun r => r.admin_user)).dedup.length <
          (if pe.required_admins_count = 0 then 2 else pe.required_admins_count) := by
        rw [hreq, if_neg (by decide)]
        omega
      have h := decideResolve_approve_pending ok
        (upsertApproval db rid a .approve c (some v) now) pe rid a now
        (by simpa using hfind) hid hlt
      refine ⟨_, h.2.1, by simp [hst], by simp [hreq], ?_⟩
      intro r hr
      apply hclosed
      have heq : approveRowsFor
          (decideResolve ok (upsertApproval db rid a .approve c (some v) now) pe
            rid a .approve now).2 rid =
          approveRowsFor (upsertApproval db rid a .approve c (some v) now) rid := by
        unfold approveRowsFor
        rw [decideResolve_approvals]
      rwa [heq] at hr

/-- Iterating same-admin approve calls preserves pending status. -/
theorem sameAdmin_iter (ok : Bool) (a rid : Nat) :
    ∀ (calls : List (String × Option JsNum × Int)) (db : DB)
      (pe : PersonalExpense),
      findPe db rid = some pe → pe.status = .pending →
      pe.required_admins_count = 2 →
      (∀ r ∈ approveRowsFor db rid, r.admin_user = a) →
      ∃ pe', findPe (sameAdminApproves ok a rid db calls) rid = some pe' ∧
        pe'.status = .pending := by
  intro calls
  induction calls with
  | nil =>
    intro db pe h1 h2 _ _
    exact ⟨pe, h1, h2⟩
  | cons head rest ih =>
    intro db pe h1 h2 h3 h4
    obtain ⟨c, raw, t⟩ := head
    obtain ⟨pe', hf, hs, hr, hrows'⟩ := sameAdmin_step ok db a rid pe c raw t h1 h2 h3 h4
    simp only [sameAdminApproves]
    exact ih _ pe' hf hs hr hrows'

@[simp] theorem setPes_pes (db : DB) (x : List PersonalExpense) :
    (setPes db x).pes = x := rfl

@[simp] theorem setPes_entries (db : DB) (x : List PersonalExpense) :
    (setPes db x).entries = db.entries := rfl

@[simp] theorem setPes_incomes (db : DB) (x : List PersonalExpense) :
    (setPes db x).incomes = db.incomes := rfl

@[simp] theorem setEntries_pes' (db : DB) (x : List ExpenseEntry) :
    (setEntries db x).pes = db.pes := rfl

/-- JavaScript `x || 0` is the identity on finite numbers. -/
theorem orZero_fin (x : ℚ) : JsNum.orZero (.fin x) = .fin x := by
  unfold JsNum.orZero
  by_cases h : x = 0
  · subst h
    rw [if_pos (Or.inl rfl)]
  · rw [if_neg (by simp [h])]

/-- A non-NaN JS number is strictly equal to itself. -/
theorem jsStrictEq_self {v : JsNum} (hv : v.isNaN = false) :
    JsNum.strictEq v v = true := by
  cases v <;> simp_all [JsNum.strictEq, JsNum.isNaN]

theorem foldl_add_fin (qs : List ℚ) :
    ∀ acc : ℚ, (qs.map JsNum.fin).foldl JsNum.add (.fin acc) = .fin (acc + qs.sum) := by
  induction qs with
  | nil => intro acc; simp
  | cons q qs ih =>
    intro acc
    simp only [List.map_cons, List.foldl_cons, JsNum.add, List.sum_cons]
    rw [ih (acc + q)]
    ring_nf

/-- Summation of finite amounts is exact. -/
theorem sumJs_map_fin (qs : List ℚ) : sumJs (qs.map .fin) = .fin qs.sum := by
  have := foldl_add_fin qs 0
  simpa [sumJs] using this

/-- Guard reduction for PUT /:id: malformed id. -/
theorem putEdit_malformed (ok : Bool) (db : DB) (actor : Nat) (b : EditBody)
    (now : Int) :
    putEdit ok db actor .malformed b now = (.error .notFound, db) := rfl

/-- Guard reduction for PUT /:id: unknown id. -/
theorem putEdit_not_found (ok : Bool) (db : DB) (actor rid : Nat) (b : EditBody)
    (now : Int) (h : findPe db rid = none) :
    putEdit ok db actor (.valid rid) b now = (.error .notFound, db) := by
  unfold putEdit
  simp only [h]

/-- Guard reduction for POST /:id/submit: malformed id. -/
theorem postSubmit_malformed (ok : Bool) (db : DB) (actor : Nat) (now : Int) :
    postSubmit ok db actor .malformed now = (.error .notFound, db) := rfl

/-- Guard reduction for POST /:id/submit: unknown id. -/
theorem postSubmit_not_found (ok : Bool) (db : DB) (actor rid : Nat) (now : Int)
    (h : findPe db rid = none) :
    postSubmit ok db actor (.valid rid) now = (.error .notFound, db) := by
  unfold postSubmit
  simp only [h]

/-- Guard reduction for POST /:id/submit: non-owner. -/
theorem postSubmit_not_owner (ok : Bool) (db : DB) (actor rid : Nat) (now : Int)
    (pe : PersonalExpense) (hfind : findPe db rid = some pe)
    (hu : pe.user ≠ actor) :
    postSubmit ok db actor (.valid rid) now = (.error .notOwner, db) := by
  unfold postSubmit
  simp only [hfind]
  rw [if_pos hu]

/-- Guard reduction for POST /:id/submit: not draft. -/
theorem postSubmit_not_draft (ok : Bool) (db : DB) (actor rid : Nat) (now : Int)
    (pe : PersonalExpense) (hfind : findPe db rid = some pe)
    (hu : pe.user = actor) (hs : pe.status ≠ .draft) :
    postSubmit ok db actor (.valid rid) now = (.error .invalidState, db) := by
  unfold postSubmit
  simp only [hfind]
  rw [if_neg (fun hne => hne hu), if_pos hs]

/-- Reduction for POST /:id/submit on the happy path. -/
theorem postSubmit_ok_eq (ok : Bool) (db : DB) (actor rid : Nat) (now : Int)
    (pe : PersonalExpense) (hfind : findPe db rid = some pe)
    (hu : pe.user = actor) (hs : pe.status = .draft) :
    postSubmit ok db actor (.valid rid) now =
      (.ok { pe with status := Status.pending, updatedAt := now },
       notifyAdmins ok
         (createAudit ok (updatePe db { pe with status := Status.pending, updatedAt := now })
           ⟨"personal_expense", rid, "submit", some actor⟩) rid actor
         ((createAudit ok (updatePe db { pe with status := Status.pending, updatedAt := now })
           ⟨"personal_expense", rid, "submit", some actor⟩).users.filter
             (fun u => u.role == "adminA" || u.role == "adminB"))) := by
  unfold postSubmit
  simp only [hfind]
  rw [if_neg (fun hne => hne hu), if_neg (fun hne => hne hs)]

/-- Guard reduction for POST /:id/cancel: malformed id. -/
theorem postCancel_malformed (ok : Bool) (db : DB) (actor : Nat) (now : Int) :
    postCancel ok db actor .malformed now = (.error .notFound, db) := rfl

/-- Guard reduction for POST /:id/cancel: unknown id. -/
theorem postCancel_not_found (ok : Bool) (db : DB) (actor rid : Nat) (now : Int)
    (h : findPe db rid = none) :
    postCancel ok db actor (.valid rid) now = (.error .notFound, db) := by
  unfold postCancel
  simp only [h]

/-- Guard reduction for POST /:id/cancel: non-owner. -/
theorem postCancel_not_owner (ok : Bool) (db : DB) (actor rid : Nat) (now : Int)
    (pe : PersonalExpense) (hfind : findPe db rid = some pe)
    (hu : pe.user ≠ actor) :
    postCancel ok db actor (.valid rid) now = (.error .notOwner, db) := by
  unfold postCancel
  simp only [hfind]
  rw [if_pos hu]

/-- Guard reduction for POST /:id/cancel: terminal status. -/
theorem postCancel_terminal (ok : Bool) (db : DB) (actor rid : Nat) (now : Int)
    (pe : PersonalExpense) (hfind : findPe db rid = some pe)
    (hu : pe.user = actor)
    (hs : pe.status = .approved ∨ pe.status = .rejected ∨ pe.status = .cancelled) :
    postCancel ok db actor (.valid rid) now = (.error .invalidState, db) := by
  unfold postCancel
  simp only [hfind]
  rw [if_neg (fun hne => hne hu), if_pos hs]

/-- Reduction for POST /:id/cancel on the happy path. -/
theorem postCancel_ok_eq (ok : Bool) (db : DB) (actor rid : Nat) (now : Int)
    (pe : PersonalExpense) (hfind : findPe db rid = some pe)
    (hu : pe.user = actor)
    (hs : ¬ (pe.status = .approved ∨ pe.status = .rejected ∨ pe.status = .cancelled)) :
    postCancel ok db actor (.valid rid) now =
      (.ok { pe with status := Status.cancelled, updatedAt := now },
       createAudit ok (updatePe db { pe with status := Status.cancelled, updatedAt := now })
         ⟨"personal_expense", rid, "cancelled", some actor⟩) := by
  unfold postCancel
  simp only [hfind]
  rw [if_neg (fun hne => hne hu), if_neg hs]

/-- Guard reduction for GET /:id/approvals: malformed id. -/
theorem getApprovals_malformed (db : DB) (actor : Nat) (role : String) :
    getApprovalsRoute db actor role .malformed = (.error .notFound, db) := rfl

/-- Guard reduction for GET /:id/approvals: unknown id. -/
theorem getApprovals_not_found (db : DB) (actor : Nat) (role : String)
    (rid : Nat) (h : findPe db rid = none) :
    getApprovalsRoute db actor role (.valid rid) = (.error .notFound, db) := by
  unfold getApprovalsRoute
  simp only [h]

/-- Guard reduction for PUT /:id: non-owner. -/
theorem putEdit_not_owner (ok : Bool) (db : DB) (actor rid : Nat) (b : EditBody)
    (now : Int) (pe : PersonalExpense) (hfind : findPe db rid = some pe)
    (hu : pe.user ≠ actor) :
    putEdit ok db actor (.valid rid) b now = (.error .notOwner, db) := by
  unfold putEdit
  simp only [hfind]
  rw [if_pos hu]

/-- Guard reduction for PUT /:id: owner but not draft. -/
theorem putEdit_not_draft (ok : Bool) (db : DB) (actor rid : Nat) (b : EditBody)
    (now : Int) (pe : PersonalExpense) (hfind : findPe db rid = some pe)
    (hu : pe.user = actor) (hs : pe.status ≠ .draft) :
    putEdit ok db actor (.valid rid) b now = (.error .invalidState, db) := by
  unfold putEdit
  simp only [hfind]
  rw [if_neg (fun hne => hne hu), if_pos hs]

/-- Reduction for PUT /:id on the happy path. -/
theorem putEdit_ok (ok : Bool) (db : DB) (actor rid : Nat) (b : EditBody)
    (now : Int) (pe : PersonalExpense) (hfind : findPe db rid = some pe)
    (hu : pe.user = actor) (hs : pe.status = .draft) :
    putEdit ok db actor (.valid rid) b now =
      (.ok (applyEdit pe b now),
       createAudit ok (updatePe db (applyEdit pe b now))
         ⟨"personal_expense", rid, "update", some actor⟩) := by
  unfold putEdit
  simp only [hfind]
  rw [if_neg (fun hne => hne hu), if_neg (fun hne => hne hs)]

theorem businessEq_refl (d : DB) : businessEq d d :=
  ⟨rfl, rfl, rfl, rfl, rfl, rfl, rfl, rfl⟩

theorem businessEq_symm {d1 d2 : DB} (h : businessEq d1 d2) : businessEq d2 d1 := by
  obtain ⟨h1, h2, h3, h4, h5, h6, h7, h8⟩ := h
  exact ⟨h1.symm, h2.symm, h3.symm, h4.symm, h5.symm, h6.symm, h7.symm, h8.symm⟩

theorem businessEq_trans {d1 d2 d3 : DB} (h : businessEq d1 d2)
    (h' : businessEq d2 d3) : businessEq d1 d3 := by
  obtain ⟨h1, h2, h3, h4, h5, h6, h7, h8⟩ := h
  obtain ⟨k1, k2, k3, k4, k5, k6, k7, k8⟩ := h'
  exact ⟨h1.trans k1, h2.trans k2, h3.trans k3, h4.trans k4, h5.trans k5,
    h6.trans k6, h7.trans k7, h8.trans k8⟩

/-- An audit write — succeeding or swallowed — changes no business state. -/
theorem businessEq_createAudit (ok : Bool) (d : DB) (r : AuditRecord) :
    businessEq (createAudit ok d r) d := by
  cases ok <;> exact ⟨rfl, rfl, rfl, rfl, rfl, rfl, rfl, rfl⟩

/-- Audit writes at both ends of a common business state. -/
theorem businessEq_createAudit2 (ok ok' : Bool) (d : DB) (r r' : AuditRecord) :
    businessEq (createAudit ok d r) (createAudit ok' d r') :=
  businessEq_trans (businessEq_createAudit ok d r)
    (businessEq_symm (businessEq_createAudit ok' d r'))

theorem businessEq_addNotif {d1 d2 : DB} (n : Notif) (h : businessEq d1 d2) :
    businessEq (addNotif d1 n) (addNotif d2 n) := by
  obtain ⟨h1, h2, h3, h4, h5, h6, h7, h8⟩ := h
  exact ⟨h1, h2, h3, h4, h5, h6, by simp [h7], h8⟩

/-- The admin-notification loop preserves business-state agreement whatever
the audit outcomes are. -/
theorem notifyAdmins_businessEq :
    ∀ (l : List UserRec) (ok ok' : Bool) (d1 d2 : DB) (rid actor : Nat),
      businessEq d1 d2 →
      businessEq (notifyAdmins ok d1 rid actor l) (notifyAdmins ok' d2 rid actor l) := by
  intro l
  induction l with
  | nil =>
    intro ok ok' d1 d2 rid actor h
    simpa [notifyAdmins] using h
  | cons a rest ih =>
    intro ok ok' d1 d2 rid actor h
    simp only [notifyAdmins]
    apply ih
    exact businessEq_trans
      (businessEq_createAudit ok (addNotif d1 ⟨a.id, "New personal expense pending approval"⟩) _)
      (businessEq_trans (businessEq_addNotif _ h)
        (businessEq_symm (businessEq_createAudit ok' (addNotif d2 ⟨a.id, "New personal expense pending approval"⟩) _)))

/-- The approve/reject resolution tail gives equal responses and business
states whatever the audit outcomes are. -/
theorem decideResolve_audit_free (ok ok' : Bool) (db1 : DB)
    (pe : PersonalExpense) (rid adm : Nat) (dec : Decision) (now : Int) :
    (decideResolve ok db1 pe rid adm dec now).1 =
      (decideResolve ok' db1 pe rid adm dec now).1 ∧
    businessEq (decideResolve ok db1 pe rid adm dec now).2
      (decideResolve ok' db1 pe rid adm dec now).2 := by
  cases dec
  · constructor
    · simp only [decideResolve]
      split <;> split <;> rfl
    · simp only [decideResolve]
      split <;> split <;> (refine ⟨?_, ?_, ?_, ?_, ?_, ?_, ?_, ?_⟩ <;> simp)
  · constructor
    · rfl
    · simp only [decideResolve]
      refine ⟨?_, ?_, ?_, ?_, ?_, ?_, ?_, ?_⟩ <;> simp

/-- The checked decide body gives equal responses and business states
whatever the audit outcomes are. -/
theorem postApproveChecked_audit_free (ok ok' : Bool) (db : DB) (adm rid : Nat)
    (dec : Decision) (c : String) (amt : Option JsNum) (now : Int) :
    (postApproveChecked ok db adm rid dec c amt now).1 =
      (postApproveChecked ok' db adm rid dec c amt now).1 ∧
    businessEq (postApproveChecked ok db adm rid dec c amt now).2
      (postApproveChecked ok' db adm rid dec c amt now).2 := by
  cases hfind : findPe db rid with
  | none =>
    rw [postApproveChecked_not_found ok db adm rid dec c amt now hfind,
        postApproveChecked_not_found ok' db adm rid dec c amt now hfind]
    exact ⟨rfl, businessEq_refl db⟩
  | some pe =>
    by_cases hst : pe.status = .pending
    · rw [postApproveChecked_eq ok db adm rid dec c amt now pe hfind hst,
          postApproveChecked_eq ok' db adm rid dec c amt now pe hfind hst]
      exact decideResolve_audit_free ok ok' _ pe rid adm dec now
    · rw [postApproveChecked_not_pending ok db adm rid dec c amt now pe hfind hst,
          postApproveChecked_not_pending ok' db adm rid dec c amt now pe hfind hst]
      exact ⟨rfl, businessEq_refl db⟩

/-! ### Claim theorems -/

/-- C1: with required_approver_count 2, approve decisions by two distinct
admins finalize a pending request, while any number of approve calls by one
and the same admin never finalizes it alone; a repeat vote overwrites that
admin's existing decision row (upsert keyed on (request, admin)) rather than
inserting a new one, and quorum counts the set of distinct admin identifiers
holding a current approve decision. -/
theorem c1_two_distinct_admins_quorum :
    (∀ (ok : Bool) (a rid : Nat) (calls : List (String × Option JsNum × Int))
       (db : DB) (pe : PersonalExpense),
        findPe db rid = some pe → pe.status = .pending →
        pe.required_admins_count = 2 →
        (∀ r ∈ approveRowsFor db rid, r.admin_user = a) →
        ∃ pe', findPe (sameAdminApproves ok a rid db calls) rid = some pe' ∧
          pe'.status = .pending)
    ∧ (∀ (ok : Bool) (db : DB) (a rid : Nat) (pe : PersonalExpense) (c : String)
         (v : JsNum) (now : Int),
        findPe db rid = some pe → pe.status = .pending → v.isNaN = false →
        ((postApprove ok db a (.valid rid) "approve" c (some v) now).2.approvals.length =
          if db.approvals.any
              (fun r => r.personal_expense == rid && r.admin_user == a) then
            db.approvals.length
          else db.approvals.length + 1) ∧
        (∀ r ∈ (postApprove ok db a (.valid rid) "approve" c (some v) now).2.approvals,
          r.personal_expense = rid → r.admin_user = a →
            r.decision = .approve ∧ r.approved_amount = some v))
    ∧ (∀ (ok : Bool) (db : DB) (a b rid : Nat) (pe : PersonalExpense)
         (c : String) (v : JsNum) (now : Int),
        findPe db rid = some pe → pe.status = .pending →
        pe.required_admins_count = 2 → a ≠ b → v.isNaN = false →
        (∃ r ∈ approveRowsFor db rid, r.admin_user = a) →
        ∃ pe', findPe (postApprove ok db b (.valid rid) "approve" c (some v) now).2 rid =
          some pe' ∧ pe'.status = .approved) := by
  refine ⟨?_, ?_, ?_⟩
  · intro ok a rid calls db pe h1 h2 h3 h4
    exact sameAdmin_iter ok a rid calls db pe h1 h2 h3 h4
  · intro ok db a rid pe c v now hfind hst hv
    rw [postApprove_approve_eq ok db a rid c v now hv,
        postApproveChecked_eq ok db a rid .approve c (some v) now pe hfind hst,
        decideResolve_approvals]
    constructor
    · by_cases hany : db.approvals.any
          (fun r => r.personal_expense == rid && r.admin_user == a) = true
      · rw [if_pos hany]
        exact upsertApproval_length_of_hasRow hany
      · rw [if_neg hany]
        exact upsertApproval_length_of_fresh (by simpa using hany)
    · intro r hr hpe hadm
      have h := upsertApproval_key_rows db rid a .approve c (some v) now r hr hpe hadm
      exact ⟨h.1, h.2.2.1⟩
  · intro ok db a b rid pe c v now hfind hst hreq hab hv hex
    have hid := findPe_id hfind
    rw [postApprove_approve_eq ok db b rid c v now hv,
        postApproveChecked_eq ok db b rid .approve c (some v) now pe hfind hst]
    obtain ⟨ra, hra, hraa⟩ := hex
    have hra1 : ra ∈ approveRowsFor
        (upsertApproval db rid b .approve c (some v) now) rid :=
      approveRowsFor_upsert_other hra (by rw [hraa]; exact hab)
    obtain ⟨rb, hrb, hrbb, _⟩ :=
      approveRowsFor_upsert_self db rid b c (some v) now
    have hmema : a ∈ (approveRowsFor
        (upsertApproval db rid b .approve c (some v) now) rid).map
          (fun r => r.admin_user) := List.mem_map.mpr ⟨ra, hra1, hraa⟩
    have hmemb : b ∈ (approveRowsFor
        (upsertApproval db rid b .approve c (some v) now) rid).map
          (fun r => r.admin_user) := List.mem_map.mpr ⟨rb, hrb, hrbb⟩
    have h2 := two_le_dedup_length hmema hmemb hab
    have hge : ((approveRowsFor (upsertApproval db rid b .approve c (some v) now)
        rid).map (fun r => r.admin_user)).dedup.length ≥
        (if pe.required_admins_count = 0 then 2 else pe.required_admins_count) := by
      rw [hreq, if_neg (by decide)]
      exact h2
    have h := decideResolve_approve_final ok
      (upsertApproval db rid b .approve c (some v) now) pe rid b now
      (by simpa using hfind) hid hge
    exact ⟨_, h.2.1, rfl⟩

/-- Concrete run of C1: two same-admin approves keep the fixture pending; the
upsert facts hold on it; then a second distinct admin finalizes. -/
theorem c1_two_distinct_admins_quorum_witness :
    (∃ pe', findPe (sameAdminApproves true 1 100 dbA
        [("", some (.fin 100), 1), ("", some (.fin 120), 2)]) 100 = some pe' ∧
      pe'.status = .pending) ∧
    ((postApprove true dbA 1 (.valid 100) "approve" "" (some (.fin 100)) 1).2.approvals.length =
      if dbA.approvals.any
          (fun r => r.personal_expense == 100 && r.admin_user == 1) then
        dbA.approvals.length
      else dbA.approvals.length + 1) ∧
    (∃ pe', findPe (postApprove true
        (postApprove true dbA 1 (.valid 100) "approve" "" (some (.fin 100)) 1).2 2
        (.valid 100) "approve" "" (some (.fin 101)) 2).2 100 = some pe' ∧
      pe'.status = .approved) := by
  refine ⟨?_, ?_, ?_⟩
  · exact c1_two_distinct_admins_quorum.1 true 1 100
      [("", some (.fin 100), 1), ("", some (.fin 120), 2)] dbA peA rfl rfl rfl
      (by intro r hr; simp [approveRowsFor, dbA] at hr)
  · exact (c1_two_distinct_admins_quorum.2.1 true dbA 1 100 peA "" (.fin 100) 1
      rfl rfl rfl).1
  · refine c1_two_distinct_admins_quorum.2.2 true
      (postApprove true dbA 1 (.valid 100) "approve" "" (some (.fin 100)) 1).2 1 2
      100 { peA with approvals_count := 1, updatedAt := 1 } "" (.fin 101) 2
      (by rfl) rfl rfl (by decide) rfl ?_
    exact ⟨⟨100, 1, .approve, "", some (.fin 100), 1⟩, by decide, rfl⟩

/-- C2: on quorum the final approved_amount is resolved deterministically from
the non-null amounts of the current approve decisions: none supplied →
requested_amount, else amount_avg; all numerically equal → that exact value;
otherwise the arithmetic mean rounded to the nearest integer with halves
rounded up.  The last conjunct ties the resolution to the decide pipeline:
the finalized request stores exactly this resolution of its current approve
rows. -/
theorem c2_final_amount_resolution :
    (∀ avg : ℚ, finalApprovedAmount [] none avg = .fin avg)
    ∧ (∀ r avg : ℚ, finalApprovedAmount [] (some r) avg = .fin r)
    ∧ (∀ (v : JsNum) (l : List JsNum) (req : Option ℚ) (avg : ℚ),
        v.isNaN = false → (∀ x ∈ l, x = v) →
        finalApprovedAmount (v :: l) req avg = v)
    ∧ (∀ (q0 : ℚ) (qs : List ℚ) (req : Option ℚ) (avg : ℚ),
        ¬ (∀ x ∈ qs, x = q0) →
        finalApprovedAmount ((q0 :: qs).map .fin) req avg =
          .fin ((⌊(q0 + qs.sum) / ((qs.length : ℚ) + 1) + 1/2⌋ : ℤ) : ℚ) ∧
        ((⌊(q0 + qs.sum) / ((qs.length : ℚ) + 1) + 1/2⌋ : ℚ) ≤
            (q0 + qs.sum) / ((qs.length : ℚ) + 1) + 1/2 ∧
          (q0 + qs.sum) / ((qs.length : ℚ) + 1) - 1/2 <
            (⌊(q0 + qs.sum) / ((qs.length : ℚ) + 1) + 1/2⌋ : ℚ)))
    ∧ (∀ (ok : Bool) (db : DB) (a b rid : Nat) (pe : PersonalExpense)
         (c : String) (v : JsNum) (now : Int),
        findPe db rid = some pe → pe.status = .pending →
        pe.required_admins_count = 2 → a ≠ b → v.isNaN = false →
        (∃ r ∈ approveRowsFor db rid, r.admin_user = a) →
        ∃ pe', findPe (postApprove ok db b (.valid rid) "approve" c (some v) now).2 rid =
            some pe' ∧
          pe'.approved_amount = some (finalApprovedAmount
            ((approveRowsFor
              (postApprove ok db b (.valid rid) "approve" c (some v) now).2 rid).filterMap
                (fun r => r.approved_amount))
            pe.requested_amount pe.amount_avg)) := by
  refine ⟨fun avg => rfl, fun r avg => rfl, ?_, ?_, ?_⟩
  · intro v l req avg hv hall
    have hall' : ((v :: l).all fun x => JsNum.strictEq x v) = true := by
      rw [List.all_eq_true]
      intro x hx
      rcases List.mem_cons.mp hx with rfl | hx
      · exact jsStrictEq_self hv
      · rw [hall x hx]
        exact jsStrictEq_self hv
    simp only [finalApprovedAmount]
    rw [if_pos hall']
  · intro q0 qs req avg hne
    push_neg at hne
    obtain ⟨x, hx, hxne⟩ := hne
    have hallfalse : ((JsNum.fin q0 :: qs.map JsNum.fin).all
        (fun v => JsNum.strictEq v (JsNum.fin q0))) = false := by
      rw [List.all_eq_false]
      refine ⟨.fin x, List.mem_cons_of_mem _ (List.mem_map_of_mem _ hx), ?_⟩
      simp [JsNum.strictEq, hxne]
    constructor
    · show finalApprovedAmount (JsNum.fin q0 :: qs.map JsNum.fin) req avg = _
      simp only [finalApprovedAmount]
      rw [if_neg (by simp [hallfalse])]
      have hsum : sumJs (JsNum.fin q0 :: qs.map JsNum.fin) = .fin (q0 + qs.sum) := by
        have := sumJs_map_fin (q0 :: qs)
        simpa using this
      rw [hsum]
      have hlen : (JsNum.fin q0 :: qs.map JsNum.fin).length = qs.length + 1 := by
        simp
      rw [hlen]
      simp [JsNum.divNat, JsNum.round]
    · constructor
      · exact Int.floor_le _
      · have := Int.lt_floor_add_one
          ((q0 + qs.sum) / ((qs.length : ℚ) + 1) + 1/2)
        linarith
  · intro ok db a b rid pe c v now hfind hst hreq hab hv hex
    have hid := findPe_id hfind
    rw [postApprove_approve_eq ok db b rid c v now hv,
        postApproveChecked_eq ok db b rid .approve c (some v) now pe hfind hst]
    obtain ⟨ra, hra, hraa⟩ := hex
    have hra1 : ra ∈ approveRowsFor
        (upsertApproval db rid b .approve c (some v) now) rid :=
      approveRowsFor_upsert_other hra (by rw [hraa]; exact hab)
    obtain ⟨rb, hrb, hrbb, _⟩ :=
      approveRowsFor_upsert_self db rid b c (some v) now
    have hmema : a ∈ (approveRowsFor
        (upsertApproval db rid b .approve c (some v) now) rid).map
          (fun r => r.admin_user) := List.mem_map.mpr ⟨ra, hra1, hraa⟩
    have hmemb : b ∈ (approveRowsFor
        (upsertApproval db rid b .approve c (some v) now) rid).map
          (fun r => r.admin_user) := List.mem_map.mpr ⟨rb, hrb, hrbb⟩
    have h2 := two_le_dedup_length hmema hmemb hab
    have hge : ((approveRowsFor (upsertApproval db rid b .approve c (some v) now)
        rid).map (fun r => r.admin_user)).dedup.length ≥
        (if pe.required_admins_count = 0 then 2 else pe.required_admins_count) := by
      rw [hreq, if_neg (by decide)]
      exact h2
    have h := decideResolve_approve_final ok
      (upsertApproval db rid b .approve c (some v) now) pe rid b now
      (by simpa using hfind) hid hge
    refine ⟨_, h.2.1, ?_⟩
    have hrows : approveRowsFor
        (decideResolve ok (upsertApproval db rid b .approve c (some v) now) pe rid
          b .approve now).2 rid =
        approveRowsFor (upsertApproval db rid b .approve c (some v) now) rid := by
      unfold approveRowsFor
      rw [decideResolve_approvals]
    rw [hrows]

/-- Concrete instances of C2: equal submissions of 100 resolve to 100,
disagreeing submissions 100 and 101 resolve to round(100.5) = 101, and the
no-amount fallback picks requested_amount 250; the full pipeline on the
fixture finalizes with the resolution of its two stored votes. -/
theorem c2_final_amount_resolution_witness :
    finalApprovedAmount [] (some 250) 100 = .fin 250 ∧
    finalApprovedAmount [.fin 100, .fin 100] none 0 = .fin 100 ∧
    finalApprovedAmount ((100 :: [101]).map .fin) none 0 =
      .fin ((⌊((100 : ℚ) + ([101] : List ℚ).sum) / ((([101] : List ℚ).length : ℚ) + 1) + 1/2⌋ : ℤ) : ℚ) ∧
    finalApprovedAmount [.fin 100, .fin 101] none 0 = .fin 101 ∧
    (∃ pe', findPe (postApprove true
        (postApprove true dbA 1 (.valid 100) "approve" "" (some (.fin 100)) 1).2 2
        (.valid 100) "approve" "" (some (.fin 101)) 2).2 100 = some pe' ∧
      pe'.approved_amount = some (finalApprovedAmount
        ((approveRowsFor (postApprove true
          (postApprove true dbA 1 (.valid 100) "approve" "" (some (.fin 100)) 1).2 2
          (.valid 100) "approve" "" (some (.fin 101)) 2).2 100).filterMap
            (fun r => r.approved_amount))
        (some 250) 100)) := by
  refine ⟨c2_final_amount_resolution.2.1 250 100,
    c2_final_amount_resolution.2.2.1 (.fin 100) [.fin 100] none 0 rfl (by decide),
    (c2_final_amount_resolution.2.2.2.1 100 [101] none 0 (by decide)).1,
    by norm_num [finalApprovedAmount, sumJs, JsNum.divNat, JsNum.round,
      JsNum.strictEq, JsNum.add], ?_⟩
  exact c2_final_amount_resolution.2.2.2.2 true
    (postApprove true dbA 1 (.valid 100) "approve" "" (some (.fin 100)) 1).2 1 2
    100 { peA with approvals_count := 1, updatedAt := 1 } "" (.fin 101) 2
    (by rfl) rfl rfl (by decide) rfl
    ⟨⟨100, 1, .approve, "", some (.fin 100), 1⟩, by decide, rfl⟩

/-- C3: a single reject decision on a pending request sets its status to
rejected immediately, regardless of how many approve decisions already exist;
afterwards every well-formed decide call on that request fails with
InvalidState and leaves the stored state unchanged (decisions are accepted
only while the status is pending). -/
theorem c3_reject_terminal :
    (∀ (ok : Bool) (db : DB) (adm rid : Nat) (pe : PersonalExpense) (c : String)
       (raw : Option JsNum) (now : Int),
        findPe db rid = some pe → pe.status = .pending →
        (postApprove ok db adm (.valid rid) "reject" c raw now).1 =
          .ok .rejectedResp ∧
        ∃ pe', findPe (postApprove ok db adm (.valid rid) "reject" c raw now).2 rid =
          some pe' ∧ pe'.status = .rejected)
    ∧ (∀ (ok : Bool) (db : DB) (adm rid : Nat) (pe : PersonalExpense)
         (decision c : String) (raw : Option JsNum) (now : Int),
        findPe db rid = some pe → pe.status ≠ .pending →
        (decision = "approve" ∨ decision = "reject") →
        (decision = "approve" → ∃ v, raw = some v ∧ v.isNaN = false) →
        postApprove ok db adm (.valid rid) decision c raw now =
          (.error .invalidState, db)) := by
  constructor
  · intro ok db adm rid pe c raw now hfind hst
    have hid := findPe_id hfind
    rw [postApprove_reject_eq, postApproveChecked_eq ok db adm rid .reject c raw
      now pe hfind hst]
    have h := decideResolve_reject ok (upsertApproval db rid adm .reject c raw now)
      pe rid adm now (by simpa using hfind) hid
    exact ⟨h.1, _, h.2.1, rfl⟩
  · intro ok db adm rid pe decision c raw now hfind hst hdec hval
    rcases hdec with rfl | rfl
    · obtain ⟨v, rfl, hv⟩ := hval rfl
      rw [postApprove_approve_eq ok db adm rid c v now hv]
      exact postApproveChecked_not_pending ok db adm rid .approve c (some v) now
        pe hfind hst
    · rw [postApprove_reject_eq]
      exact postApproveChecked_not_pending ok db adm rid .reject c raw now pe
        hfind hst

/-- Concrete run of C3: one reject on the pending fixture, then a well-formed
approve attempt against the now-rejected request. -/
theorem c3_reject_terminal_witness :
    ((postApprove true dbA 1 (.valid 100) "reject" "no" none 7).1 =
      .ok .rejectedResp ∧
     ∃ pe', findPe (postApprove true dbA 1 (.valid 100) "reject" "no" none 7).2 100 =
       some pe' ∧ pe'.status = .rejected) ∧
    postApprove true (postApprove true dbA 1 (.valid 100) "reject" "no" none 7).2 2
        (.valid 100) "approve" "" (some (.fin 5)) 8 =
      (.error .invalidState,
       (postApprove true dbA 1 (.valid 100) "reject" "no" none 7).2) := by
  refine ⟨c3_reject_terminal.1 true dbA 1 100 peA "no" none 7 rfl rfl, ?_⟩
  exact c3_reject_terminal.2 true _ 2 100
    { peA with status := Status.rejected, approvals_count := 0, updatedAt := 7 }
    "approve" "" (some (.fin 5)) 8 (by rfl) (by decide) (Or.inl rfl)
    (fun _ => ⟨.fin 5, rfl, rfl⟩)

/-- C6 counterexample: the claim predicts ValidationError for any
approved_amount that does not parse as a finite number, but the code checks
only Number.isNaN, so Infinity (e.g. the request-body string "Infinity")
passes validation, a decision row is created, and the call succeeds. -/
theorem c6_counterexample :
    (postApprove true dbA 1 (.valid 100) "approve" "" (some .posInf) 3).1 =
      .ok (.stillPending 1 2) ∧
    (postApprove true dbA 1 (.valid 100) "approve" "" (some .posInf) 3).1 ≠
      .error .validationError ∧
    (postApprove true dbA 1 (.valid 100) "approve" "" (some .posInf) 3).2.approvals =
      [⟨100, 1, .approve, "", some .posInf, 3⟩] := by
  refine ⟨rfl, ?_, rfl⟩
  intro h
  have h2 : (postApprove true dbA 1 (.valid 100) "approve" "" (some .posInf) 3).1 =
      .ok (.stillPending 1 2) := rfl
  rw [h2] at h
  exact Except.noConfusion h

/-- C6 as amended: an approve decision fails with ValidationError when its
approved_amount is absent/null or coerces to NaN, and in that failing case no
decision row is created and the whole state is unchanged; a reject decision
requires no approved_amount.  A non-finite numeric value (Infinity) passes
the validation. -/
theorem c6_approve_amount_validation :
    (∀ (ok : Bool) (db : DB) (adm rid : Nat) (c : String) (now : Int),
        postApprove ok db adm (.valid rid) "approve" c none now =
          (.error .validationError, db))
    ∧ (∀ (ok : Bool) (db : DB) (adm rid : Nat) (c : String) (v : JsNum)
         (now : Int), v.isNaN = true →
        postApprove ok db adm (.valid rid) "approve" c (some v) now =
          (.error .validationError, db))
    ∧ (∀ (ok : Bool) (db : DB) (adm rid : Nat) (pe : PersonalExpense)
         (c : String) (now : Int),
        findPe db rid = some pe → pe.status = .pending →
        (postApprove ok db adm (.valid rid) "reject" c none now).1 =
          .ok .rejectedResp) := by
  refine ⟨postApprove_approve_none, postApprove_approve_nan, ?_⟩
  intro ok db adm rid pe c now hfind hst
  rw [postApprove_reject_eq,
      postApproveChecked_eq ok db adm rid .reject c none now pe hfind hst]
  exact (decideResolve_reject ok (upsertApproval db rid adm .reject c none now)
    pe rid adm now (by simpa using hfind) (findPe_id hfind)).1

/-- Concrete instantiation of the amended C6. -/
theorem c6_approve_amount_validation_witness :
    postApprove true dbA 1 (.valid 100) "approve" "" none 3 =
      (.error .validationError, dbA) ∧
    postApprove true dbA 1 (.valid 100) "approve" "" (some .nan) 3 =
      (.error .validationError, dbA) ∧
    (postApprove true dbA 1 (.valid 100) "reject" "" none 3).1 =
      .ok .rejectedResp :=
  ⟨c6_approve_amount_validation.1 true dbA 1 100 "" 3,
   c6_approve_amount_validation.2.1 true dbA 1 100 "" .nan 3 rfl,
   c6_approve_amount_validation.2.2 true dbA 1 100 peA "" 3 rfl rfl⟩

/-- C10 counterexample: the claim predicts NotFound for every call whose id
matches no stored request, but the decide endpoint validates the body before
loading the request, so an unknown id combined with an invalid decision
yields ValidationError instead of NotFound. -/
theorem c10_counterexample :
    findPe dbA 999 = none ∧
    (postApprove true dbA 1 (.valid 999) "bogus" "" none 0).1 =
      .error .validationError ∧
    (postApprove true dbA 1 (.valid 999) "bogus" "" none 0).1 ≠
      .error .notFound := by
  refine ⟨rfl, rfl, ?_⟩
  intro h
  have h2 : (postApprove true dbA 1 (.valid 999) "bogus" "" none 0).1 =
      .error .validationError := rfl
  rw [h2] at h
  simp at h

/-- C10 as amended: for edit, submit, cancel and the approvals listing, a
malformed id or an id matching no stored request yields NotFound before any
ownership or status check, with no state change; for decide the body
validation precedes the lookup, so the same holds for every call whose body
validates. -/
theorem c10_not_found_guards :
    (∀ (ok : Bool) (db : DB) (actor : Nat) (b : EditBody) (now : Int),
        putEdit ok db actor .malformed b now = (.error .notFound, db))
    ∧ (∀ (ok : Bool) (db : DB) (actor rid : Nat) (b : EditBody) (now : Int),
        findPe db rid = none →
        putEdit ok db actor (.valid rid) b now = (.error .notFound, db))
    ∧ (∀ (ok : Bool) (db : DB) (actor : Nat) (now : Int),
        postSubmit ok db actor .malformed now = (.error .notFound, db))
    ∧ (∀ (ok : Bool) (db : DB) (actor rid : Nat) (now : Int),
        findPe db rid = none →
        postSubmit ok db actor (.valid rid) now = (.error .notFound, db))
    ∧ (∀ (ok : Bool) (db : DB) (actor : Nat) (now : Int),
        postCancel ok db actor .malformed now = (.error .notFound, db))
    ∧ (∀ (ok : Bool) (db : DB) (actor rid : Nat) (now : Int),
        findPe db rid = none →
        postCancel ok db actor (.valid rid) now = (.error .notFound, db))
    ∧ (∀ (db : DB) (actor : Nat) (role : String),
        getApprovalsRoute db actor role .malformed = (.error .notFound, db))
    ∧ (∀ (db : DB) (actor : Nat) (role : String) (rid : Nat),
        findPe db rid = none →
        getApprovalsRoute db actor role (.valid rid) = (.error .notFound, db))
    ∧ (∀ (ok : Bool) (db : DB) (adm : Nat) (d c : String) (raw : Option JsNum)
         (now : Int),
        postApprove ok db adm .malformed d c raw now = (.error .notFound, db))
    ∧ (∀ (ok : Bool) (db : DB) (adm rid : Nat) (decision c : String)
         (raw : Option JsNum) (now : Int),
        findPe db rid = none →
        (decision = "approve" ∨ decision = "reject") →
        (decision = "approve" → ∃ v, raw = some v ∧ v.isNaN = false) →
        postApprove ok db adm (.valid rid) decision c raw now =
          (.error .notFound, db)) := by
  refine ⟨putEdit_malformed, putEdit_not_found, postSubmit_malformed,
    postSubmit_not_found, postCancel_malformed, postCancel_not_found,
    getApprovals_malformed, getApprovals_not_found, postApprove_malformed, ?_⟩
  · intro ok db adm rid decision c raw now h hdec hval
    rcases hdec with rfl | rfl
    · obtain ⟨v, rfl, hv⟩ := hval rfl
      rw [postApprove_approve_eq ok db adm rid c v now hv]
      exact postApproveChecked_not_found ok db adm rid .approve c (some v) now h
    · rw [postApprove_reject_eq]
      exact postApproveChecked_not_found ok db adm rid .reject c raw now h

/-- Concrete instantiation of the amended C10 at an unknown id. -/
theorem c10_not_found_guards_witness :
    putEdit true dbA 10 (.valid 999)
      ⟨none, none, none, none, none, none, none, none, none, none⟩ 0 =
      (.error .notFound, dbA) ∧
    postSubmit true dbA 10 (.valid 999) 0 = (.error .notFound, dbA) ∧
    postCancel true dbA 10 (.valid 999) 0 = (.error .notFound, dbA) ∧
    getApprovalsRoute dbA 10 "user" (.valid 999) = (.error .notFound, dbA) ∧
    postApprove true dbA 1 (.valid 999) "approve" "" (some (.fin 5)) 0 =
      (.error .notFound, dbA) :=
  ⟨c10_not_found_guards.2.1 true dbA 10 999
      ⟨none, none, none, none, none, none, none, none, none, none⟩ 0 rfl,
   c10_not_found_guards.2.2.2.1 true dbA 10 999 0 rfl,
   c10_not_found_guards.2.2.2.2.2.1 true dbA 10 999 0 rfl,
   c10_not_found_guards.2.2.2.2.2.2.2.1 dbA 10 "user" 999 rfl,
   c10_not_found_guards.2.2.2.2.2.2.2.2.2 true dbA 1 999 "approve" ""
     (some (.fin 5)) 0 rfl (Or.inl rfl) (fun _ => ⟨.fin 5, rfl, rfl⟩)⟩

/-- C7: edit succeeds only when the actor owns the request and its status is
draft; with the owner acting on a non-draft request it fails with
InvalidState; every failed edit leaves the stored state completely unchanged;
and a successful edit mutates only the editable attribute set (the
mongoose-managed updatedAt timestamp aside). -/
theorem c7_edit_guards_frame :
    (∀ (ok : Bool) (db : DB) (actor rid : Nat) (b : EditBody) (now : Int)
       (pe' : PersonalExpense),
        (putEdit ok db actor (.valid rid) b now).1 = .ok pe' →
        ∃ pe, findPe db rid = some pe ∧ pe.user = actor ∧ pe.status = .draft)
    ∧ (∀ (ok : Bool) (db : DB) (actor rid : Nat) (b : EditBody) (now : Int)
         (pe : PersonalExpense),
        findPe db rid = some pe → pe.user = actor → pe.status ≠ .draft →
        putEdit ok db actor (.valid rid) b now = (.error .invalidState, db))
    ∧ (∀ (ok : Bool) (db : DB) (actor : Nat) (idp : IdParam) (b : EditBody)
         (now : Int) (e : ApiError) (db' : DB),
        putEdit ok db actor idp b now = (.error e, db') → db' = db)
    ∧ (∀ (ok : Bool) (db : DB) (actor rid : Nat) (b : EditBody) (now : Int)
         (pe : PersonalExpense),
        findPe db rid = some pe → pe.user = actor → pe.status = .draft →
        (putEdit ok db actor (.valid rid) b now).1 = .ok (applyEdit pe b now) ∧
        (applyEdit pe b now).id = pe.id ∧
        (applyEdit pe b now).user = pe.user ∧
        (applyEdit pe b now).status = pe.status ∧
        (applyEdit pe b now).unit = pe.unit ∧
        (applyEdit pe b now).required_admins_count = pe.required_admins_count ∧
        (applyEdit pe b now).approvals_count = pe.approvals_count ∧
        (applyEdit pe b now).approved_amount = pe.approved_amount ∧
        (applyEdit pe b now).approved_at = pe.approved_at ∧
        (applyEdit pe b now).createdAt = pe.createdAt) := by
  refine ⟨?_, putEdit_not_draft, ?_, ?_⟩
  · intro ok db actor rid b now pe' h
    cases hfind : findPe db rid with
    | none =>
      rw [putEdit_not_found ok db actor rid b now hfind] at h
      exact absurd h (by simp)
    | some pe =>
      by_cases hu : pe.user = actor
      · by_cases hs : pe.status = .draft
        · exact ⟨pe, rfl, hu, hs⟩
        · rw [putEdit_not_draft ok db actor rid b now pe hfind hu hs] at h
          exact absurd h (by simp)
      · rw [putEdit_not_owner ok db actor rid b now pe hfind hu] at h
        exact absurd h (by simp)
  · intro ok db actor idp b now e db' h
    cases idp with
    | malformed =>
      rw [putEdit_malformed ok db actor b now] at h
      exact (congrArg Prod.snd h).symm
    | valid rid =>
      cases hfind : findPe db rid with
      | none =>
        rw [putEdit_not_found ok db actor rid b now hfind] at h
        exact (congrArg Prod.snd h).symm
      | some pe =>
        by_cases hu : pe.user = actor
        · by_cases hs : pe.status = .draft
          · rw [putEdit_ok ok db actor rid b now pe hfind hu hs] at h
            exact absurd (congrArg Prod.fst h) (by simp)
          · rw [putEdit_not_draft ok db actor rid b now pe hfind hu hs] at h
            exact (congrArg Prod.snd h).symm
        · rw [putEdit_not_owner ok db actor rid b now pe hfind hu] at h
          exact (congrArg Prod.snd h).symm
  · intro ok db actor rid b now pe hfind hu hs
    rw [putEdit_ok ok db actor rid b now pe hfind hu hs]
    exact ⟨rfl, rfl, rfl, rfl, rfl, rfl, rfl, rfl, rfl, rfl⟩

/-- Concrete instantiation of C7 on the fixtures: editing the pending request
fails with InvalidState and changes nothing; editing the draft succeeds and
keeps every non-editable attribute. -/
theorem c7_edit_guards_frame_witness :
    putEdit true dbA 10 (.valid 100)
      ⟨some "new title", none, none, none, none, none, none, none, none, none⟩ 5 =
        (.error .invalidState, dbA) ∧
    (putEdit true dbA 10 (.valid 101)
      ⟨some "new title", none, none, none, none, none, none, none, none, none⟩ 5).1 =
        .ok (applyEdit peDraft
          ⟨some "new title", none, none, none, none, none, none, none, none, none⟩ 5) ∧
    (applyEdit peDraft
      ⟨some "new title", none, none, none, none, none, none, none, none, none⟩ 5).status =
        peDraft.status :=
  ⟨c7_edit_guards_frame.2.1 true dbA 10 100
    ⟨some "new title", none, none, none, none, none, none, none, none, none⟩ 5
    peA rfl rfl (by decide),
   (c7_edit_guards_frame.2.2.2 true dbA 10 101
    ⟨some "new title", none, none, none, none, none, none, none, none, none⟩ 5
    peDraft rfl rfl rfl).1,
   (c7_edit_guards_frame.2.2.2 true dbA 10 101
    ⟨some "new title", none, none, none, none, none, none, none, none, none⟩ 5
    peDraft rfl rfl rfl).2.2.2.1⟩

/-- C5: GET /api/reports/remaining sums ledger entries over the inclusive
range by actual_amount with fall-back to amount_avg, excluding every entry
tagged as personal-derived; sums approved requests by approved_amount with
fall-back to requested_amount then amount_avg; and reports
totalExpenses = totalLedgerExpenses + totalPersonalApproved and
remaining = totalIncome − totalExpenses.  The spec's totalLedgerExpenses is
the source's totalGlobalExpenses.  The last conjunct is the spec's own test
vector: income 1000, one tagged entry of 300, one approved request of 300. -/
theorem c5_remaining_summary :
    (∀ (db : DB) (s e : Int),
        (getRemaining db s e).totalGlobalExpenses =
          JsNum.orZero (remainingGlobalRaw db s e) ∧
        (getRemaining db s e).totalPersonalApproved =
          JsNum.orZero (remainingPersonalRaw db s e) ∧
        (getRemaining db s e).totalExpenses =
          JsNum.add (JsNum.orZero (getRemaining db s e).totalGlobalExpenses)
            (JsNum.orZero (getRemaining db s e).totalPersonalApproved) ∧
        (getRemaining db s e).remaining =
          JsNum.sub (.fin (getRemaining db s e).totalIncome)
            (JsNum.orZero (getRemaining db s e).totalExpenses))
    ∧ (∀ (db : DB) (s e : Int) (en : ExpenseEntry), isPersonalDerived en = true →
        remainingGlobalRaw (setEntries db (db.entries ++ [en])) s e =
          remainingGlobalRaw db s e)
    ∧ (∀ (db : DB) (s e : Int) (p : PersonalExpense), peRangeMatch s e p = true →
        remainingPersonalRaw (setPes db (db.pes ++ [p])) s e =
          JsNum.add (remainingPersonalRaw db s e) (peVal p))
    ∧ (∀ (p : PersonalExpense) (v : JsNum),
        p.approved_amount = some v → peVal p = v)
    ∧ (∀ (p : PersonalExpense) (r : ℚ), p.approved_amount = none →
        p.requested_amount = some r → peVal p = .fin r)
    ∧ (∀ p : PersonalExpense, p.approved_amount = none →
        p.requested_amount = none → peVal p = .fin p.amount_avg)
    ∧ ((getRemaining dbB 0 100).totalIncome = 1000 ∧
       (getRemaining dbB 0 100).totalGlobalExpenses = .fin 0 ∧
       (getRemaining dbB 0 100).totalPersonalApproved = .fin 300 ∧
       (getRemaining dbB 0 100).totalExpenses = .fin 300 ∧
       (getRemaining dbB 0 100).remaining = .fin 700) := by
  refine ⟨fun db s e => ⟨rfl, rfl, rfl, rfl⟩, ?_, ?_, ?_, ?_, ?_, ?_⟩
  · intro db s e en h
    unfold remainingGlobalRaw
    rw [setEntries_entries, List.filter_append]
    have hnil : [en].filter (fun en =>
        (decide (s ≤ en.date) && decide (en.date ≤ e)) && ! isPersonalDerived en) = [] := by
      simp [h]
    rw [hnil, List.append_nil]
  · intro db s e p h
    unfold remainingPersonalRaw
    rw [setPes_pes, List.filter_append]
    have hone : [p].filter (peRangeMatch s e) = [p] := by
      simp [h]
    rw [hone, List.map_append, List.map_cons, List.map_nil]
    exact sumJs_append _ _
  · intro p v h
    unfold peVal
    rw [h]
  · intro p r h1 h2
    unfold peVal
    rw [h1, h2]
  · intro p h1 h2
    unfold peVal
    rw [h1, h2]
  · have htag : isPersonalDerived entryB = true :=
      mkPersonalEntry_isPersonalDerived peApproved (.fin 300) 1 50
    have hg : remainingGlobalRaw dbB 0 100 = .fin 0 := by
      simp [remainingGlobalRaw, dbB, htag, sumJs]
    have hp : remainingPersonalRaw dbB 0 100 = .fin 300 := by
      simp [remainingPersonalRaw, dbB, peRangeMatch, peApproved, peA, peVal,
        sumJs, JsNum.add]
    have hinc : remainingIncome dbB 0 100 = 1000 := by
      simp [remainingIncome, dbB, incomeB]
    refine ⟨hinc, ?_, ?_, ?_, ?_⟩
    · show JsNum.orZero (remainingGlobalRaw dbB 0 100) = .fin 0
      rw [hg, orZero_fin]
    · show JsNum.orZero (remainingPersonalRaw dbB 0 100) = .fin 300
      rw [hp, orZero_fin]
    · show JsNum.add (JsNum.orZero (JsNum.orZero (remainingGlobalRaw dbB 0 100)))
        (JsNum.orZero (JsNum.orZero (remainingPersonalRaw dbB 0 100))) = .fin 300
      rw [hg, hp, orZero_fin, orZero_fin, orZero_fin, orZero_fin]
      show JsNum.fin (0 + 300) = .fin 300
      norm_num
    · show JsNum.sub (.fin (remainingIncome dbB 0 100))
        (JsNum.orZero (JsNum.add
          (JsNum.orZero (JsNum.orZero (remainingGlobalRaw dbB 0 100)))
          (JsNum.orZero (JsNum.orZero (remainingPersonalRaw dbB 0 100))))) = .fin 700
      rw [hinc, hg, hp, orZero_fin, orZero_fin, orZero_fin, orZero_fin]
      simp only [JsNum.add]
      rw [show (0 : ℚ) + 300 = 300 by norm_num, orZero_fin]
      simp only [JsNum.sub]
      norm_num

/-- Concrete instantiation of the hypotheses of C5's theorem on the fixture
scenario. -/
theorem c5_remaining_summary_witness :
    isPersonalDerived entryB = true ∧
    remainingGlobalRaw (setEntries dbB (dbB.entries ++ [entryB])) 0 100 =
      remainingGlobalRaw dbB 0 100 ∧
    peRangeMatch 0 100 peApproved = true ∧
    remainingPersonalRaw (setPes dbB (dbB.pes ++ [peApproved])) 0 100 =
      JsNum.add (remainingPersonalRaw dbB 0 100) (peVal peApproved) ∧
    peVal peApproved = .fin 300 :=
  ⟨mkPersonalEntry_isPersonalDerived peApproved (.fin 300) 1 50,
   c5_remaining_summary.2.1 dbB 0 100 entryB
     (mkPersonalEntry_isPersonalDerived peApproved (.fin 300) 1 50),
   by decide,
   c5_remaining_summary.2.2.1 dbB 0 100 peApproved (by decide),
   c5_remaining_summary.2.2.2.1 peApproved (.fin 300) rfl⟩

/-- C9: computeMonthlyTotals (served via GET /api/expenses with
include_monthly_balance=true) applies no personal-derived exclusion: a
materialized entry dated in the month adds its actual_amount to
expenseTotalFromEntries while the originating approved request adds its
approved_amount to expenseTotalFromPersonal, so totalExpenses counts the
amount twice — unlike GET /reports/remaining, whose ledger sum excludes the
same tagged entry for every range. -/
theorem c9_monthly_double_count :
    ∀ (db : DB) (s e : Int) (pe : PersonalExpense) (amt w S P : ℚ) (ad : Nat)
      (t d : Int),
      pe.status = .approved → pe.approved_at = some d → s ≤ d → d < e →
      pe.approved_amount = some (.fin w) →
      s ≤ (mkPersonalEntry pe (.fin amt) ad t).date →
      (mkPersonalEntry pe (.fin amt) ad t).date < e →
      monthlyEntriesRaw (setEntries db (db.entries ++ [mkPersonalEntry pe (.fin amt) ad t])) s e =
        JsNum.add (monthlyEntriesRaw db s e) (.fin amt) ∧
      monthlyPersonalRaw (setPes db (db.pes ++ [pe])) s e =
        JsNum.add (monthlyPersonalRaw db s e) (.fin w) ∧
      (monthlyEntriesRaw db s e = .fin S → monthlyPersonalRaw db s e = .fin P →
        (computeMonthlyTotals
          (setPes (setEntries db (db.entries ++ [mkPersonalEntry pe (.fin amt) ad t]))
            (db.pes ++ [pe])) s e).totalExpenses = .fin (S + amt + (P + w))) ∧
      (∀ s' e' : Int,
        remainingGlobalRaw (setEntries db (db.entries ++ [mkPersonalEntry pe (.fin amt) ad t])) s' e' =
          remainingGlobalRaw db s' e') := by
  intro db s e pe amt w S P ad t d hst hat hd1 hd2 hw hdate1 hdate2
  have hentries : ∀ (base : List ExpenseEntry),
      monthlyEntriesRaw (setEntries db (base ++ [mkPersonalEntry pe (.fin amt) ad t])) s e =
        JsNum.add (monthlyEntriesRaw (setEntries db base) s e) (.fin amt) := by
    intro base
    unfold monthlyEntriesRaw
    rw [setEntries_entries, setEntries_entries, List.filter_append]
    have hone : [mkPersonalEntry pe (.fin amt) ad t].filter
        (fun en => decide (s ≤ en.date) && decide (en.date < e)) =
        [mkPersonalEntry pe (.fin amt) ad t] := by
      simp [hdate1, hdate2]
    rw [hone, List.map_append, List.map_cons, List.map_nil]
    exact sumJs_append _ _
  have hpers : ∀ (basep : List PersonalExpense),
      monthlyPersonalRaw (setPes db (basep ++ [pe])) s e =
        JsNum.add (monthlyPersonalRaw (setPes db basep) s e) (.fin w) := by
    intro basep
    unfold monthlyPersonalRaw
    rw [setPes_pes, setPes_pes, List.filter_append]
    have hone : [pe].filter (fun p => p.status == Status.approved &&
        (match p.approved_at with
         | some d => decide (s ≤ d) && decide (d < e)
         | none => false)) = [pe] := by
      simp [hst, hat, hd1, hd2]
    rw [hone, List.map_append, List.map_cons, List.map_nil, hw]
    exact sumJs_append _ _
  have hEbase : monthlyEntriesRaw (setEntries db db.entries) s e =
      monthlyEntriesRaw db s e := rfl
  have hPbase : monthlyPersonalRaw (setPes db db.pes) s e =
      monthlyPersonalRaw db s e := rfl
  refine ⟨by rw [hentries db.entries, hEbase], by rw [hpers db.pes, hPbase], ?_, ?_⟩
  · intro hS hP
    have h1 : monthlyEntriesRaw
        (setPes (setEntries db (db.entries ++ [mkPersonalEntry pe (.fin amt) ad t]))
          (db.pes ++ [pe])) s e = .fin (S + amt) := by
      unfold monthlyEntriesRaw
      rw [setPes_entries, setEntries_entries, List.filter_append]
      have hone : [mkPersonalEntry pe (.fin amt) ad t].filter
          (fun en => decide (s ≤ en.date) && decide (en.date < e)) =
          [mkPersonalEntry pe (.fin amt) ad t] := by
        simp [hdate1, hdate2]
      rw [hone, List.map_append, List.map_cons, List.map_nil]
      rw [sumJs_append]
      have : sumJs ((db.entries.filter
          (fun en => decide (s ≤ en.date) && decide (en.date < e))).map
            (fun en => en.actual_amount.getD (.fin 0))) = .fin S := hS
      rw [this]
      rfl
    have h2 : monthlyPersonalRaw
        (setPes (setEntries db (db.entries ++ [mkPersonalEntry pe (.fin amt) ad t]))
          (db.pes ++ [pe])) s e = .fin (P + w) := by
      unfold monthlyPersonalRaw
      rw [setPes_pes, List.filter_append]
      have hone : [pe].filter (fun p => p.status == Status.approved &&
          (match p.approved_at with
           | some d => decide (s ≤ d) && decide (d < e)
           | none => false)) = [pe] := by
        simp [hst, hat, hd1, hd2]
      rw [hone, List.map_append, List.map_cons, List.map_nil, hw]
      rw [sumJs_append]
      have : sumJs ((db.pes.filter (fun p => p.status == Status.approved &&
          (match p.approved_at with
           | some d => decide (s ≤ d) && decide (d < e)
           | none => false))).map
            (fun p => p.approved_amount.getD (.fin 0))) = .fin P := hP
      rw [this]
      rfl
    show JsNum.add (JsNum.orZero (monthlyEntriesRaw _ s e))
      (JsNum.orZero (monthlyPersonalRaw _ s e)) = _
    rw [h1, h2, orZero_fin, orZero_fin]
    rfl
  · intro s' e'
    unfold remainingGlobalRaw
    rw [setEntries_entries, List.filter_append]
    have hnil : [mkPersonalEntry pe (.fin amt) ad t].filter (fun en =>
        (decide (s' ≤ en.date) && decide (en.date ≤ e')) && ! isPersonalDerived en) = [] := by
      simp [mkPersonalEntry_isPersonalDerived]
    rw [hnil, List.append_nil]

/-- Concrete instantiation of C9 on the fixture: the month [0, 100) with the
empty database, the approved request of 300 and its materialized entry. -/
theorem c9_monthly_double_count_witness :
    monthlyEntriesRaw (setEntries dbE (dbE.entries ++ [mkPersonalEntry peApproved (.fin 300) 1 50])) 0 100 =
      JsNum.add (monthlyEntriesRaw dbE 0 100) (.fin 300) ∧
    (computeMonthlyTotals
      (setPes (setEntries dbE (dbE.entries ++ [mkPersonalEntry peApproved (.fin 300) 1 50]))
        (dbE.pes ++ [peApproved])) 0 100).totalExpenses = .fin (0 + 300 + (0 + 300)) := by
  have h := c9_monthly_double_count dbE 0 100 peApproved 300 300 0 0 1 50 50
    rfl rfl (by decide) (by decide) rfl (by decide) (by decide)
  exact ⟨h.1, h.2.2.1 rfl rfl⟩

/-- C8: a failure of the audit recorder never propagates: createAudit catches
its own storage error, so every business operation (create, edit, submit,
decide, cancel) returns the same response and the same business state whether
each audit write succeeds (ok = true) or fails and is swallowed (ok = false);
only the diagnostic audit collection can differ. -/
theorem c8_audit_failures_never_propagate :
    ∀ (ok ok' : Bool) (db : DB),
      (∀ (actor : Nat) (b : CreateBody) (now : Int),
        (postCreate ok db actor b now).1 = (postCreate ok' db actor b now).1 ∧
        businessEq (postCreate ok db actor b now).2 (postCreate ok' db actor b now).2)
      ∧ (∀ (actor : Nat) (idp : IdParam) (b : EditBody) (now : Int),
        (putEdit ok db actor idp b now).1 = (putEdit ok' db actor idp b now).1 ∧
        businessEq (putEdit ok db actor idp b now).2 (putEdit ok' db actor idp b now).2)
      ∧ (∀ (actor : Nat) (idp : IdParam) (now : Int),
        (postSubmit ok db actor idp now).1 = (postSubmit ok' db actor idp now).1 ∧
        businessEq (postSubmit ok db actor idp now).2 (postSubmit ok' db actor idp now).2)
      ∧ (∀ (adm : Nat) (idp : IdParam) (d c : String) (raw : Option JsNum)
          (now : Int),
        (postApprove ok db adm idp d c raw now).1 =
          (postApprove ok' db adm idp d c raw now).1 ∧
        businessEq (postApprove ok db adm idp d c raw now).2
          (postApprove ok' db adm idp d c raw now).2)
      ∧ (∀ (actor : Nat) (idp : IdParam) (now : Int),
        (postCancel ok db actor idp now).1 = (postCancel ok' db actor idp now).1 ∧
        businessEq (postCancel ok db actor idp now).2
          (postCancel ok' db actor idp now).2) := by
  intro ok ok' db
  refine ⟨?_, ?_, ?_, ?_, ?_⟩
  · intro actor b now
    by_cases hval : b.title = none ∨ b.title = some "" ∨ b.amount_min = none ∨
        b.amount_avg = none ∨ b.amount_max = none
    · unfold postCreate
      rw [if_pos hval, if_pos hval]
      exact ⟨rfl, businessEq_refl db⟩
    · unfold postCreate
      rw [if_neg hval, if_neg hval]
      cases hc : b.category with
      | none =>
        simp only
        exact ⟨by trivial, businessEq_createAudit2 ok ok' _ _ _⟩
      | some cp =>
        cases cp with
        | byId cid =>
          simp only
          cases hfind : db.categories.find? (fun c => c.id == cid) with
          | none =>
            simp only [hfind]
            exact ⟨by trivial, businessEq_refl db⟩
          | some cat =>
            simp only [hfind]
            exact ⟨by trivial, businessEq_createAudit2 ok ok' _ _ _⟩
        | byName nm =>
          simp only
          cases hfind : db.categories.find? (fun c => lowerStr c.name == lowerStr nm) with
          | none =>
            simp only [hfind]
            exact ⟨by trivial, businessEq_createAudit2 ok ok' _ _ _⟩
          | some cat =>
            simp only [hfind]
            exact ⟨by trivial, businessEq_createAudit2 ok ok' _ _ _⟩
  · intro actor idp b now
    cases idp with
    | malformed => exact ⟨rfl, businessEq_refl db⟩
    | valid rid =>
      cases hfind : findPe db rid with
      | none =>
        rw [putEdit_not_found ok db actor rid b now hfind,
            putEdit_not_found ok' db actor rid b now hfind]
        exact ⟨rfl, businessEq_refl db⟩
      | some pe =>
        by_cases hu : pe.user = actor
        · by_cases hs : pe.status = .draft
          · rw [putEdit_ok ok db actor rid b now pe hfind hu hs,
                putEdit_ok ok' db actor rid b now pe hfind hu hs]
            exact ⟨rfl, businessEq_createAudit2 ok ok' _ _ _⟩
          · rw [putEdit_not_draft ok db actor rid b now pe hfind hu hs,
                putEdit_not_draft ok' db actor rid b now pe hfind hu hs]
            exact ⟨rfl, businessEq_refl db⟩
        · rw [putEdit_not_owner ok db actor rid b now pe hfind hu,
              putEdit_not_owner ok' db actor rid b now pe hfind hu]
          exact ⟨rfl, businessEq_refl db⟩
  · intro actor idp now
    cases idp with
    | malformed => exact ⟨rfl, businessEq_refl db⟩
    | valid rid =>
      cases hfind : findPe db rid with
      | none =>
        rw [postSubmit_not_found ok db actor rid now hfind,
            postSubmit_not_found ok' db actor rid now hfind]
        exact ⟨rfl, businessEq_refl db⟩
      | some pe =>
        by_cases hu : pe.user = actor
        · by_cases hs : pe.status = .draft
          · rw [postSubmit_ok_eq ok db actor rid now pe hfind hu hs,
                postSubmit_ok_eq ok' db actor rid now pe hfind hu hs]
            refine ⟨rfl, ?_⟩
            have hadm : (createAudit ok
                (updatePe db { pe with status := Status.pending, updatedAt := now })
                ⟨"personal_expense", rid, "submit", some actor⟩).users.filter
                  (fun u => u.role == "adminA" || u.role == "adminB") =
                (createAudit ok'
                (updatePe db { pe with status := Status.pending, updatedAt := now })
                ⟨"personal_expense", rid, "submit", some actor⟩).users.filter
                  (fun u => u.role == "adminA" || u.role == "adminB") := by
              simp
            rw [hadm]
            exact notifyAdmins_businessEq _ ok ok' _ _ rid actor
              (businessEq_createAudit2 ok ok' _ _ _)
          · rw [postSubmit_not_draft ok db actor rid now pe hfind hu hs,
                postSubmit_not_draft ok' db actor rid now pe hfind hu hs]
            exact ⟨rfl, businessEq_refl db⟩
        · rw [postSubmit_not_owner ok db actor rid now pe hfind hu,
              postSubmit_not_owner ok' db actor rid now pe hfind hu]
          exact ⟨rfl, businessEq_refl db⟩
  · intro adm idp d c raw now
    cases idp with
    | malformed => exact ⟨rfl, businessEq_refl db⟩
    | valid rid =>
      by_cases h1 : d = "approve" ∨ d = "reject"
      · by_cases h2 : d = "approve"
        · subst h2
          cases raw with
          | none =>
            rw [postApprove_approve_none ok db adm rid c now,
                postApprove_approve_none ok' db adm rid c now]
            exact ⟨rfl, businessEq_refl db⟩
          | some v =>
            by_cases hv : v.isNaN = true
            · rw [postApprove_approve_nan ok db adm rid c v now hv,
                  postApprove_approve_nan ok' db adm rid c v now hv]
              exact ⟨rfl, businessEq_refl db⟩
            · have hv' : v.isNaN = false := by simpa using hv
              rw [postApprove_approve_eq ok db adm rid c v now hv',
                  postApprove_approve_eq ok' db adm rid c v now hv']
              exact postApproveChecked_audit_free ok ok' db adm rid .approve c
                (some v) now
        · have h3 : d = "reject" := h1.resolve_left h2
          subst h3
          rw [postApprove_reject_eq ok db adm rid c raw now,
              postApprove_reject_eq ok' db adm rid c raw now]
          exact postApproveChecked_audit_free ok ok' db adm rid .reject c raw now
      · push_neg at h1
        rw [postApprove_invalid_decision ok db adm rid d c raw now h1.1 h1.2,
            postApprove_invalid_decision ok' db adm rid d c raw now h1.1 h1.2]
        exact ⟨rfl, businessEq_refl db⟩
  · intro actor idp now
    cases idp with
    | malformed => exact ⟨rfl, businessEq_refl db⟩
    | valid rid =>
      cases hfind : findPe db rid with
      | none =>
        rw [postCancel_not_found ok db actor rid now hfind,
            postCancel_not_found ok' db actor rid now hfind]
        exact ⟨rfl, businessEq_refl db⟩
      | some pe =>
        by_cases hu : pe.user = actor
        · by_cases hs : pe.status = .approved ∨ pe.status = .rejected ∨
              pe.status = .cancelled
          · rw [postCancel_terminal ok db actor rid now pe hfind hu hs,
                postCancel_terminal ok' db actor rid now pe hfind hu hs]
            exact ⟨rfl, businessEq_refl db⟩
          · rw [postCancel_ok_eq ok db actor rid now pe hfind hu hs,
                postCancel_ok_eq ok' db actor rid now pe hfind hu hs]
            exact ⟨rfl, businessEq_createAudit2 ok ok' _ _ _⟩
        · rw [postCancel_not_owner ok db actor rid now pe hfind hu,
              postCancel_not_owner ok' db actor rid now pe hfind hu]
          exact ⟨rfl, businessEq_refl db⟩

/-- C4: materializing the same finalized request twice produces exactly one
LedgerEntry.  The materializer searches existing entries for one tagged with
the request's identifier in its note; if found it performs no write, so the
existing entry's actual_amount is never overwritten even when the newly
resolved amount differs (first materialization wins), making materialization
idempotent under retry. -/
theorem c4_materialize_idempotent :
    (∀ (es : List ExpenseEntry) (pe : PersonalExpense) (a1 a2 : JsNum)
       (ad1 ad2 : Nat) (t1 t2 : Int),
        materializeEntry (materializeEntry es pe a1 ad1 t1) pe a2 ad2 t2 =
          materializeEntry es pe a1 ad1 t1)
    ∧ (∀ (es : List ExpenseEntry) (pe : PersonalExpense) (a1 a2 : JsNum)
         (ad1 ad2 : Nat) (t1 t2 : Int),
        es.any (fun en => containsLower en.note (toString pe.id)) = false →
        ((materializeEntry (materializeEntry es pe a1 ad1 t1) pe a2 ad2 t2).filter
            (fun en => containsLower en.note (toString pe.id))).length = 1 ∧
        ∀ en ∈ materializeEntry (materializeEntry es pe a1 ad1 t1) pe a2 ad2 t2,
          containsLower en.note (toString pe.id) = true →
            en.actual_amount = some a1) := by
  constructor
  · exact materializeEntry_idem
  · intro es pe a1 a2 ad1 ad2 t1 t2 h
    have h1 := materializeEntry_of_untagged es pe a1 ad1 t1 h
    have hidem := materializeEntry_idem es pe a1 a2 ad1 ad2 t1 t2
    have hnil : es.filter (fun en => containsLower en.note (toString pe.id)) = [] :=
      List.filter_eq_nil_iff.mpr (fun en hen => by
        have := List.any_eq_false.mp h en hen
        simpa using this)
    constructor
    · rw [hidem, h1, List.filter_append, hnil]
      simp [mkPersonalEntry_self_tag]
    · intro en hen htagged
      rw [hidem, h1] at hen
      rcases List.mem_append.mp hen with h' | h'
      · exact absurd htagged (List.any_eq_false.mp h en h')
      · rw [List.mem_singleton.mp h']
        rfl

/-- Concrete instantiation of the hypotheses of C4's theorem. -/
theorem c4_materialize_idempotent_witness :
    (([] : List ExpenseEntry).any
        (fun en => containsLower en.note (toString peA.id)) = false) ∧
    ((materializeEntry (materializeEntry [] peA (.fin 300) 1 5) peA (.fin 999) 2 6).filter
        (fun en => containsLower en.note (toString peA.id))).length = 1 :=
  ⟨rfl, (c4_materialize_idempotent.2 [] peA (.fin 300) (.fin 999) 1 2 5 6 rfl).1⟩

end HomeDB
